import Mathlib

/-!
# Verification of the ontology-matcher core against its specification

Shallow embedding of the identifier-conversion orchestrator
(`ontology_matcher/ontology_formatter.py`, `disease/__init__.py`,
`gene/__init__.py`, `compound/__init__.py`), the dedup/merge engine
(`ontology_matcher/cli.py`), and the snapshot JSON encoder/decoder
(`CustomJSONEncoder`/`CustomJSONDecoder`).

Python strings are modelled as Lean `String`; `str.split` is implemented
character-by-character (`splitCharAux`), mirroring CPython semantics for a
one-character separator.  Fallible Python operations (tuple unpacking,
list indexing, missing dataclass fields, `raise`) are modelled with
`Except String`.  Network responses are universally quantified parameters.
-/

namespace OM

/-- The `Strategy` enum from `ontology_formatter.py` (UNIQUE = "Unique",
MIXTURE = "Mixture"). -/
inductive Strategy where
  | UNIQUE
  | MIXTURE
deriving DecidableEq

/-- The `FailedId` dataclass: `{idx, id, reason}`. -/
structure FailedId where
  idx : Nat
  id : String
  reason : String
deriving DecidableEq

/-! ## Python `str.split(sep)` for a single-character separator -/

/-- Auxiliary splitter: `acc` holds the (reversed) chars of the current
segment.  `splitCharAux c acc l` returns the segments of `acc.reverse ++ l`
split on `c`.  Mirrors CPython `str.split(c)`: always at least one segment,
adjacent separators produce empty segments. -/
def splitCharAux (c : Char) : List Char → List Char → List (List Char)
  | acc, [] => [acc.reverse]
  | acc, x :: xs =>
    if x = c then acc.reverse :: splitCharAux c [] xs
    else splitCharAux c (x :: acc) xs

/-- Python `s.split(c)` for a one-character separator `c`. -/
def pySplit (s : String) (c : Char) : List String :=
  (splitCharAux c [] s.toList).map (fun l => String.mk l)

/-- Python tuple unpacking `a, b = parts` for a 2-tuple: raises
`ValueError` unless the list has exactly two elements. -/
def pyUnpack2 {α : Type} (parts : List α) : Except String (α × α) :=
  match parts with
  | [a, b] => Except.ok (a, b)
  | _ => Except.error "ValueError: not exactly two values to unpack"

/-- Python `lst[i]`: raises `IndexError` when out of range. -/
def pyIndex {α : Type} (l : List α) (i : Nat) : Except String α :=
  match l.get? i with
  | some a => Except.ok a
  | none => Except.error "IndexError: list index out of range"

/-! ## Identifier validation (`OntologyBaseConverter._check_ids`) -/

/-- A character of the regex class `[a-z0-9A-Z.]` used in
`_check_ids`'s pattern `^(db1|...|dbn):[a-z0-9A-Z.]+$`. -/
def isIdChar (c : Char) : Bool :=
  (c.isLower || c.isUpper || c.isDigit) || c = '.'

/-- `matchOneL d l` holds iff `l = d ++ ':' :: rest` with `rest` a nonempty
run of `[a-z0-9A-Z.]` characters: the regex
`^db:[a-z0-9A-Z.]+$` for the single alternative `db` (database names in
this repository contain no regex metacharacters other than `-`, which is
literal outside a class). -/
def matchOneL : List Char → List Char → Bool
  | [], l =>
    match l with
    | x :: rest => x = ':' && !rest.isEmpty && rest.all isIdChar
    | [] => false
  | d :: ds, l =>
    match l with
    | x :: xs => x = d && matchOneL ds xs
    | [] => false

/-- The full pattern `^(db1|...|dbn):[a-z0-9A-Z.]+$` of `_check_ids`:
the alternation over the configured database list. -/
def matchIdPattern (dbs : List String) (id : String) : Bool :=
  dbs.any (fun db => matchOneL db.toList id.toList)

/-- One collected violation from `_check_ids` (the dicts appended to its
local `failed_ids` list). -/
structure CheckFailure where
  idx : Nat
  id : String
  reason : String
deriving DecidableEq

/-- The reason string of `_check_ids` (`"The id must be in the format of
<database>:<id>. ..." % databases`; the Python `%` rendering of the list is
abbreviated, only distinctness matters). -/
def badFormatReason (dbs : List String) : String :=
  "The id must be in the format of <database>:<id>. Only support the following databases: "
    ++ String.intercalate ", " dbs

/-- The loop body of `_check_ids`: enumerate the (already string-filtered)
ids, collecting a `CheckFailure` for every id that fails the regex.  The
source's `not isinstance(id, str)` branch is unreachable here because
`__init__` filtered non-strings out of `self._ids` beforehand. -/
def checkIdsAux (dbs : List String) : Nat → List String → List CheckFailure
  | _, [] => []
  | i, id :: rest =>
    (if matchIdPattern dbs id then [] else [⟨i, id, badFormatReason dbs⟩])
      ++ checkIdsAux dbs (i + 1) rest

/-- `OntologyBaseConverter._check_ids`: the collected validation-failure
batch (construction raises with this whole list iff it is nonempty). -/
def checkIds (dbs : List String) (ids : List String) : List CheckFailure :=
  checkIdsAux dbs 0 ids

/-! ## Converter construction (`OntologyBaseConverter.__init__`) -/

/-- A raw entry of the caller's id list: either a Python string or any
non-string object (NaN, None, a number, ...). -/
inductive PyObj where
  | pstr (s : String)
  | other
deriving DecidableEq

/-- The `__init__` filter
`list(filter(lambda x: x and isinstance(x, str), ids))`: keeps exactly the
truthy strings, i.e. drops every non-string and the empty string. -/
def pyFilterIds : List PyObj → List String
  | [] => []
  | PyObj.pstr s :: rest =>
    if s = "" then pyFilterIds rest else s :: pyFilterIds rest
  | PyObj.other :: rest => pyFilterIds rest

/-- Error outcomes of converter construction. -/
inductive InitError where
  | batchSize (msg : String)
  | invalidIds (failures : List CheckFailure)
deriving DecidableEq

/-- `OntologyBaseConverter.check_batch_size` (the base class body): it
unconditionally raises `NotImplementedError`.  Only
`CompoundOntologyConverter` (and its `compounds`/`metabolite` copies)
overrides it; the disease/gene/symptom converters inherit this body. -/
def baseCheckBatchSize (_bs : Nat) : Except String Unit :=
  Except.error "NotImplementedError"

/-- `OntologyBaseConverter.default_check_batch_size`: raises iff the batch
size exceeds 500. -/
def defaultCheckBatchSize (bs : Nat) : Except String Unit :=
  if bs > 500 then Except.error "The batch size cannot be larger than 500."
  else Except.ok ()

/-- `CompoundOntologyConverter.check_batch_size`: delegates to
`default_check_batch_size`. -/
def compoundCheckBatchSize : Nat → Except String Unit :=
  defaultCheckBatchSize

/-- `DiseaseOntologyConverter` does not override `check_batch_size`, so it
inherits the base body. -/
def diseaseCheckBatchSize : Nat → Except String Unit :=
  baseCheckBatchSize

/-- `GeneOntologyConverter` does not override `check_batch_size` either. -/
def geneCheckBatchSize : Nat → Except String Unit :=
  baseCheckBatchSize

/-- `OntologyBaseConverter.__init__`: filter the raw entries, then (after
`print_ontology_links`, which succeeds for every modelled converter since
each `ontology_links` override covers all of its `choices`) run
`check_batch_size`, then `_check_ids`; construction returns the retained
`self._ids` on success and raises the full violation list otherwise. -/
def converterInit (choices : List String) (checkBatch : Nat → Except String Unit)
    (input : List PyObj) (batchSize : Nat) : Except InitError (List String) :=
  let ids := pyFilterIds input
  match checkBatch batchSize with
  | Except.error m => Except.error (InitError.batchSize m)
  | Except.ok _ =>
    let fs := checkIds choices ids
    if fs.isEmpty then Except.ok ids else Except.error (InitError.invalidIds fs)

/-! ## Per-entity-type configuration (`OntologyType` instances) -/

/-- `DISEASE_DICT.choices`. -/
def diseaseChoices : List String :=
  ["MONDO", "DOID", "MESH", "OMIM", "ICD-9", "HP", "ICD10CM", "ORDO", "UMLS"]

/-- `DISEASE_DICT.default`. -/
def diseaseDefault : String := "MONDO"

/-- `GENE_DICT.choices` (the keys of `default_field_dict`, in order). -/
def geneChoices : List String :=
  ["ENTREZ", "ENSEMBL", "HGNC", "MGI", "SYMBOL", "UNIPROT"]

/-- `GENE_DICT.default`. -/
def geneDefault : String := "ENTREZ"

/-- `COMPOUND_DICT.choices`. -/
def compoundChoices : List String :=
  ["DrugBank", "PUBCHEM", "CHEBI", "MESH", "UMLS", "CHEMBL", "HMDB"]

/-- `COMPOUND_DICT.default`. -/
def compoundDefault : String := "DrugBank"

/-- `SYMPTOM_DICT` (used by the dedup engine's type table). -/
def symptomChoices : List String := ["SYMP", "MESH", "UMLS", "HP"]

/-- `SYMPTOM_DICT.default`. -/
def symptomDefault : String := "MESH"

/-- `METABOLITE_DICT.choices`. -/
def metaboliteChoices : List String :=
  ["HMDB", "DrugBank", "PUBCHEM", "CHEBI", "MESH", "UMLS", "CHEMBL"]

/-- `METABOLITE_DICT.default`. -/
def metaboliteDefault : String := "HMDB"

/-- `DiseaseOntologyConverter` construction (`super().__init__` with
`DISEASE_DICT`). -/
def diseaseInit (input : List PyObj) (batchSize : Nat) :
    Except InitError (List String) :=
  converterInit diseaseChoices diseaseCheckBatchSize input batchSize

/-- `GeneOntologyConverter` construction. -/
def geneInit (input : List PyObj) (batchSize : Nat) :
    Except InitError (List String) :=
  converterInit geneChoices geneCheckBatchSize input batchSize

/-- `CompoundOntologyConverter` construction. -/
def compoundInit (input : List PyObj) (batchSize : Nat) :
    Except InitError (List String) :=
  converterInit compoundChoices compoundCheckBatchSize input batchSize

/-! ## The disease converter (`DiseaseOntologyConverter`)

`_format_response(response, batch_ids)` walks `enumerate(batch_ids)`;
the OXO response is modelled as `searchResults : List (List String)`, one
list of curie strings (`mappingResponseList` entries, via `x.get("curie")`)
per requested identifier.  The emission call
`self.add_converted_id(converted_id_dict)` has no definition anywhere in
the source tree, so reaching it raises `AttributeError` — modelled as
`addConvertedIdError`; no `ConvertedId` is ever produced. -/

/-- List comprehension / generator evaluation with a fallible body:
left-to-right, first raise wins. -/
def exMapM {α β : Type} (f : α → Except String β) : List α → Except String (List β)
  | [] => Except.ok []
  | x :: xs => do
    let y ← f x
    let ys ← exMapM f xs
    Except.ok (y :: ys)

/-- Value stored under a key of `converted_id_dict` in the disease
converter: the raw id under its own prefix, a list of converted ids for a
matched choice, or `None` for an unmatched choice. -/
inductive DBVal where
  | vstr (s : String)
  | vlist (xs : List String)
  | vnone
deriving DecidableEq

/-- The `ConvertedId` record that `ConvertedId.from_args` would build:
the annotated fields `idx` and `raw_id`, whether `metadata` is populated
(`False` = `None`), and the database-keyed entries in dict insertion
order.  It is kept as the `Sum.inr` result shape of the per-identifier
step, but the emission call that would construct it raises
`AttributeError` (`addConvertedIdError`), so runs never produce one. -/
structure ConvRec (V : Type) where
  idx : Nat
  raw_id : String
  metadata : Bool
  dbs : List (String × V)
deriving DecidableEq

/-- Python dict assignment `d[k] = v`: replace an existing key in place or
append a new one. -/
def dictSet {V : Type} : List (String × V) → String → V → List (String × V)
  | [], k, v => [(k, v)]
  | (k0, v0) :: rest, k, v =>
    if k0 = k then (k0, v) :: rest else (k0, v0) :: dictSet rest k v

/-- Python `str.lower()` (ASCII case folding suffices for the databases
and curies involved), computed on the character list so that concrete
instances reduce definitionally. -/
def pyLower (s : String) : List Char :=
  s.toList.map Char.toLower

/-- `re.match(r"^%s.*" % choice, curie, re.IGNORECASE)`: the curie starts
with the choice, case-insensitively (no separator is required after the
choice by the source pattern). -/
def matchesChoice (choice curie : String) : Bool :=
  (pyLower choice).isPrefixOf (pyLower curie)

/-- `f'{choice}:{x.get("curie").split(":")[1]}'`: extract the local part of
a curie (raises `IndexError` when the curie has no `:`). -/
def curieLocal (choice curie : String) : Except String String := do
  let v ← pyIndex (pySplit curie ':') 1
  Except.ok (choice ++ ":" ++ v)

/-- `FailedId` reason for an unconfigured prefix
(`"Invalid prefix, only support %s" % self.databases`; the Python list
rendering is abbreviated — only distinctness between reasons matters). -/
def invalidPrefixReason (dbs : List String) : String :=
  "Invalid prefix, only support " ++ String.intercalate ", " dbs

/-- Reason for an identifier with no mapping results. -/
def noResultsReason : String := "No results found"

/-- Reason for default-database ambiguity. -/
def multipleResultsReason : String := "Multiple results found"

/-- Reason for ambiguity under the unique strategy. -/
def uniqueStrategyReason : String :=
  "The strategy is unique, but multiple results found"

/-- The exception raised by every `self.add_converted_id(...)` call site:
the method is defined nowhere in the source tree (the base class only
defines `add_converted_id_dict`, `add_converted_ids` and
`add_converted_id_dicts`), so reaching the emission call raises
`AttributeError` and no `ConvertedId` is ever produced. -/
def addConvertedIdError : String :=
  "AttributeError: object has no attribute add_converted_id"

/-- The `for choice in difference` loop of
`DiseaseOntologyConverter._format_response`, lines 115-153.  Arguments:
the remaining choices, the dict built so far, and whether
`converted_id_dict["idx"]` has been assigned.  Returns `some failedId`
(with the dict discarded, mirroring `converted_id_dict = {}` before
`break`) or the final dict. -/
def diseaseChoiceLoop (strategy : Strategy) (defaultDb : String) (index : Nat)
    (id : String) (mrl : List String) :
    List String → List (String × DBVal) → Bool →
    Except String (Option FailedId × List (String × DBVal) × Bool)
  | [], dbs, hasIdx => Except.ok (none, dbs, hasIdx)
  | choice :: rest, dbs, hasIdx =>
    let matched := mrl.filter (fun x => matchesChoice choice x)
    if matched.length > 0 then do
      let convertedIds ← exMapM (curieLocal choice) matched
      let dbs := dictSet dbs choice (DBVal.vlist convertedIds)
      if choice = defaultDb ∧ convertedIds.length > 1 then
        Except.ok (some ⟨index, id, multipleResultsReason⟩, [], true)
      else if strategy = Strategy.UNIQUE ∧ convertedIds.length > 1 then
        Except.ok (some ⟨index, id, uniqueStrategyReason⟩, [], true)
      else
        diseaseChoiceLoop strategy defaultDb index id mrl rest dbs true
    else
      diseaseChoiceLoop strategy defaultDb index id mrl rest
        (dictSet dbs choice DBVal.vnone) hasIdx

/-- One iteration of the `for index, id in enumerate(batch_ids)` loop of
`DiseaseOntologyConverter._format_response`: produces a `FailedId`, or
raises `AttributeError` at `self.add_converted_id(converted_id_dict)`
(the dict is nonempty whenever the loop ends without a `break` — it holds
the prefix entry from the start — and the method is undefined, so the
`Sum.inr` arm is unreachable). -/
def diseaseProcessOne (strategy : Strategy) (choices : List String)
    (defaultDb : String) (searchResults : List (List String)) (index : Nat)
    (id : String) : Except String (Sum FailedId (ConvRec DBVal)) := do
  let (pfx, _val) ← pyUnpack2 (pySplit id ':')
  if pfx ∈ choices then do
    let mrl ← pyIndex searchResults index
    if mrl.length = 0 then
      Except.ok (Sum.inl ⟨index, id, noResultsReason⟩)
    else do
      let r ← diseaseChoiceLoop strategy defaultDb index id mrl
        (choices.filter (fun x => x ≠ pfx)) [(pfx, DBVal.vstr id)] false
      match r with
      | (some f, _, _) => Except.ok (Sum.inl f)
      | (none, _, _) => Except.error addConvertedIdError
  else
    Except.ok (Sum.inl ⟨index, id, invalidPrefixReason choices⟩)

/-- The enumerate loop of `_format_response`, accumulating
`self._failed_ids` / `self._converted_ids` appends in iteration order. -/
def diseaseFormatResponseGo (strategy : Strategy) (choices : List String)
    (defaultDb : String) (searchResults : List (List String)) :
    Nat → List String → Except String (List FailedId × List (ConvRec DBVal))
  | _, [] => Except.ok ([], [])
  | i, id :: rest => do
    let r ← diseaseProcessOne strategy choices defaultDb searchResults i id
    let (fs, cs) ← diseaseFormatResponseGo strategy choices defaultDb
      searchResults (i + 1) rest
    match r with
    | Sum.inl f => Except.ok (f :: fs, cs)
    | Sum.inr c => Except.ok (fs, c :: cs)

/-- `DiseaseOntologyConverter._format_response`: raises
`NoResultException` when the whole batch has no search results, then
processes `enumerate(batch_ids)`. -/
def diseaseFormatResponse (strategy : Strategy)
    (searchResults : List (List String)) (batchIds : List String) :
    Except String (List FailedId × List (ConvRec DBVal)) :=
  if searchResults.length = 0 then Except.error "NoResultException"
  else diseaseFormatResponseGo strategy diseaseChoices diseaseDefault
    searchResults 0 batchIds

/-- Fuel-driven helper for `chunks` (structural recursion so that concrete
instances reduce definitionally; the fuel is the list length). -/
def chunksFuel {α : Type} (bs : Nat) : Nat → List α → List (List α)
  | _, [] => []
  | 0, _ :: _ => []
  | fuel + 1, x :: xs => (x :: xs).take bs :: chunksFuel bs fuel (xs.drop (bs - 1))

/-- The batch slices `self._ids[i : i + batch_size]` of `convert`. -/
def chunks {α : Type} (bs : Nat) (l : List α) : List (List α) :=
  chunksFuel bs l.length l

/-- The batch loop of `DiseaseOntologyConverter.convert`: sequential,
accumulating failed/converted records across batches.
`MyDisease.update_metadata` (called between batches) only mutates the
`metadata` of already-collected `ConvertedId`s in place and returns the
same list, so it is modelled as the identity; `time.sleep` and the
`tenacity` retry wrapper (identical re-runs under a deterministic
resolver) are omitted. -/
def diseaseConvertGo (strategy : Strategy)
    (resolver : List String → Except String (List (List String))) :
    List (List String) → Except String (List FailedId × List (ConvRec DBVal))
  | [] => Except.ok ([], [])
  | b :: rest => do
    let resp ← resolver b
    let (f1, c1) ← diseaseFormatResponse strategy resp b
    let (f2, c2) ← diseaseConvertGo strategy resolver rest
    Except.ok (f1 ++ f2, c1 ++ c2)

/-- `DiseaseOntologyConverter.convert` over already-validated
`self._ids`, parameterized by the OXO response per batch
(`_fetch_ids`).  `range(0, n, 0)` raises `ValueError` in Python. -/
def diseaseConvert (strategy : Strategy)
    (resolver : List String → Except String (List (List String)))
    (ids : List String) (batchSize : Nat) :
    Except String (List FailedId × List (ConvRec DBVal)) :=
  if batchSize = 0 then Except.error "ValueError: range arg 3 must not be zero"
  else diseaseConvertGo strategy resolver (chunks batchSize ids)

/-! ## The gene converter (`GeneOntologyConverter._format_response`)

The mygene response dataframe (the output of `_fetch_ids`, after column
renaming) is modelled as a list of rows; a cell holds a scalar (string,
integer, or `None` — pandas `NaN` is converted to `None` by
`results.where(pd.notnull(results), None)`) or a list of scalars.
`pd.DataFrame.loc[:, choice]` on a missing column raises `KeyError`
(caught by the source, yielding `matched = None`); Python `list(set(...))`
returns the distinct elements in an unspecified order, modelled as
first-occurrence deduplication (only membership and cardinality are
consumed downstream). -/

/-- A scalar cell value of the mygene result dataframe. -/
inductive GAtom where
  | anone
  | astr (s : String)
  | aint (n : Int)
deriving DecidableEq

/-- A dataframe cell: scalar or list-valued (e.g. `ensembl.gene`). -/
inductive GCell where
  | cell (a : GAtom)
  | clist (xs : List GAtom)
deriving DecidableEq

/-- A row of the (renamed) mygene result dataframe. -/
abbrev GRow := List (String × GCell)

/-- Python `list(set(l))`: the distinct elements in an unspecified order,
modelled as keeping the last occurrence of each element (downstream code
uses only membership and `len`). -/
def pySetList {α : Type} [DecidableEq α] : List α → List α
  | [] => []
  | x :: xs => if x ∈ pySetList xs then pySetList xs
               else x :: pySetList xs

/-- `flatten_dedup` (from `ontology_formatter.py`) applied to a column's
`tolist()`: lists are flattened, scalars (including `None`) are kept. -/
def flattenDedupAtoms (cells : List GCell) : List GAtom :=
  pySetList (cells.flatMap (fun c =>
    match c with
    | GCell.cell a => [a]
    | GCell.clist xs => xs))

/-- `search_results[search_results[prefix] == key]`: select the rows whose
cell in column `pfx` equals the string `key` (`KeyError` if the column is
absent from the frame, modelled as absent from some row). -/
def geneSelectRows (t : List GRow) (pfx : String) (key : String) :
    Except String (List GRow) :=
  if t.all (fun row => (row.lookup pfx).isSome) then
    Except.ok (t.filter (fun row =>
      row.lookup pfx = some (GCell.cell (GAtom.astr key))))
  else Except.error "KeyError"

/-- `try: flatten_dedup(result.loc[:, choice].tolist()) except KeyError:
None`. -/
def geneColMatched (rows : List GRow) (choice : String) :
    Option (List GAtom) :=
  if rows.all (fun row => (row.lookup choice).isSome) then
    some (flattenDedupAtoms (rows.map (fun row =>
      (row.lookup choice).getD (GCell.cell GAtom.anone))))
  else none

/-- A value of the gene `converted_id_dict`: the raw id under its own
prefix, `None`, a single scalar, or a list (the output of
`list_or_str`). -/
inductive GDictVal where
  | gvnone
  | gvatom (a : GAtom)
  | gvlist (xs : List GAtom)
deriving DecidableEq

/-- `lambda x: f"{choice}:{x}" if choice != "MGI" and x is not None else x`
applied to one matched value (an f-string also formats integers). -/
def geneMapAtom (choice : String) (a : GAtom) : GAtom :=
  if choice = "MGI" then a
  else match a with
    | GAtom.anone => GAtom.anone
    | GAtom.astr s => GAtom.astr (choice ++ ":" ++ s)
    | GAtom.aint n => GAtom.astr (choice ++ ":" ++ toString n)

/-- `list_or_str`: `list(set(x))`, unwrapped when it is a singleton. -/
def listOrStr (xs : List GAtom) : GDictVal :=
  match pySetList xs with
  | [a] => GDictVal.gvatom a
  | ys => GDictVal.gvlist ys

/-- The `for choice in difference` loop of
`GeneOntologyConverter._format_response`, lines 147-187; same break
structure as the disease converter, with candidates drawn from the result
rows (`len(matched)` counts the deduplicated flattened values). -/
def geneChoiceLoop (strategy : Strategy) (defaultDb : String) (index : Nat)
    (id : String) (resultRows : List GRow) :
    List String → List (String × GDictVal) → Bool →
    Option FailedId × List (String × GDictVal) × Bool
  | [], dbs, hasIdx => (none, dbs, hasIdx)
  | choice :: rest, dbs, hasIdx =>
    match geneColMatched resultRows choice with
    | some (a :: as) =>
      let matched := a :: as
      let conv := listOrStr (matched.map (geneMapAtom choice))
      let dbs := dictSet dbs choice conv
      if choice = defaultDb ∧ matched.length > 1 then
        (some ⟨index, id, multipleResultsReason⟩, [], true)
      else if strategy = Strategy.UNIQUE ∧ matched.length > 1 then
        (some ⟨index, id, uniqueStrategyReason⟩, [], true)
      else
        geneChoiceLoop strategy defaultDb index id resultRows rest dbs true
    | _ =>
      geneChoiceLoop strategy defaultDb index id resultRows rest
        (dictSet dbs choice GDictVal.gvnone) hasIdx

/-- One iteration of the `enumerate(batch_ids)` loop of
`GeneOntologyConverter._format_response` (for `MGI` ids the full id is
matched against the column, otherwise the local value).  As in the
disease converter, the emission call `self.add_converted_id` is undefined
and raises `AttributeError` (`addConvertedIdError`), so the `Sum.inr` arm
is unreachable. -/
def geneProcessOne (strategy : Strategy) (choices : List String)
    (defaultDb : String) (searchResults : List GRow) (index : Nat)
    (id : String) : Except String (Sum FailedId (ConvRec GDictVal)) := do
  let (pfx, lval) ← pyUnpack2 (pySplit id ':')
  if pfx ∈ choices then do
    let key := if pfx = "MGI" then id else lval
    let rows ← geneSelectRows searchResults pfx key
    if rows.length = 0 then
      Except.ok (Sum.inl ⟨index, id, noResultsReason⟩)
    else
      match geneChoiceLoop strategy defaultDb index id rows
        (choices.filter (fun x => x ≠ pfx))
        [(pfx, GDictVal.gvatom (GAtom.astr id))] false with
      | (some f, _, _) => Except.ok (Sum.inl f)
      | (none, _, _) => Except.error addConvertedIdError
  else
    Except.ok (Sum.inl ⟨index, id, invalidPrefixReason choices⟩)

/-- The enumerate loop of the gene `_format_response`. -/
def geneFormatResponseGo (strategy : Strategy) (choices : List String)
    (defaultDb : String) (searchResults : List GRow) :
    Nat → List String → Except String (List FailedId × List (ConvRec GDictVal))
  | _, [] => Except.ok ([], [])
  | i, id :: rest => do
    let r ← geneProcessOne strategy choices defaultDb searchResults i id
    let (fs, cs) ← geneFormatResponseGo strategy choices defaultDb
      searchResults (i + 1) rest
    match r with
    | Sum.inl f => Except.ok (f :: fs, cs)
    | Sum.inr c => Except.ok (fs, c :: cs)

/-- `GeneOntologyConverter._format_response`: `NoResultException` on an
empty result frame, then the enumerate loop. -/
def geneFormatResponse (strategy : Strategy) (searchResults : List GRow)
    (batchIds : List String) :
    Except String (List FailedId × List (ConvRec GDictVal)) :=
  if searchResults.length = 0 then Except.error "NoResultException"
  else geneFormatResponseGo strategy geneChoices geneDefault searchResults
    0 batchIds

/-! ## The compound converter (`CompoundOntologyConverter.convert`)

`convert` sorts the ids, batches them, groups each batch by prefix
(`make_grouped_ids`), queries `MyChemical` per group, and then — for each
parsed result — rejects only on a multi-valued default-database entry,
never consulting the strategy; every other result reaches
`self.add_converted_id(result)`, which is undefined and raises
`AttributeError`.  The `MyChemical.parse` output is modelled as an
association list per result; `parse` gives every result an `"idx"` equal
to its position within the group query list `self.q` and a `"raw_id"`
equal to the queried item (apis.py, both the matched and the unmatched
branch). -/

/-- A value of a `MyChemical.parse` result dict: `None`, a string, the
integer `idx`, a list of converted-id strings, or the nested `metadata`
dict (whose contents `convert` never inspects). -/
inductive CResVal where
  | rnone
  | rstr (s : String)
  | rint (n : Nat)
  | rlist (xs : List String)
  | rdict
deriving DecidableEq

/-- One parsed `MyChemical` result. -/
abbrev CompoundResult := List (String × CResVal)

/-- `result.get(key)` (`None` when absent). -/
def cresGet (r : CompoundResult) (key : String) : CResVal :=
  (r.lookup key).getD CResVal.rnone

/-- `result.get("idx", 0)` as used when building the `FailedId`. -/
def cresIdx (r : CompoundResult) : Nat :=
  match r.lookup "idx" with
  | some (CResVal.rint n) => n
  | _ => 0

/-- `result.get("raw_id", "")`. -/
def cresRawId (r : CompoundResult) : String :=
  match r.lookup "raw_id" with
  | some (CResVal.rstr s) => s
  | _ => ""

/-- The `for result in results` body of `CompoundOntologyConverter.convert`
(lines 95-107): reject iff the default-database value is a list with more
than one element; every other result reaches
`self.add_converted_id(result)`, which is undefined — `AttributeError`
(`addConvertedIdError`).  The strategy is never consulted and no
`ConvertedId` is ever emitted. -/
def compoundStep (r : CompoundResult) :
    Except String (Sum FailedId (ConvRec CResVal)) :=
  match cresGet r compoundDefault with
  | CResVal.rlist xs =>
    if xs.length > 1 then
      Except.ok (Sum.inl ⟨cresIdx r, cresRawId r, multipleResultsReason⟩)
    else Except.error addConvertedIdError
  | _ => Except.error addConvertedIdError

/-- Fold `compoundStep` over the parsed results of one group. -/
def compoundStepAll :
    List CompoundResult →
    Except String (List FailedId × List (ConvRec CResVal))
  | [] => Except.ok ([], [])
  | r :: rest => do
    let s ← compoundStep r
    let (fs, cs) ← compoundStepAll rest
    match s with
    | Sum.inl f => Except.ok (f :: fs, cs)
    | Sum.inr c => Except.ok (fs, c :: cs)

/-- `GroupedIds` from `make_grouped_ids`: ids grouped by prefix (insertion
order) and the full-id → original-position map. -/
structure GroupedIds where
  id_dict : List (String × List String)
  id_idx_dict : List (String × Nat)
deriving DecidableEq

/-- Append a value to the list stored at a key (creating the key at the
end, mirroring dict insertion order). -/
def dictAppend (l : List (String × List String)) (k : String) (v : String) :
    List (String × List String) :=
  match l with
  | [] => [(k, [v])]
  | (k0, vs) :: rest =>
    if k0 = k then (k0, vs ++ [v]) :: rest else (k0, vs) :: dictAppend rest k v

/-- `make_grouped_ids` (from `ontology_formatter.py`): split each id on
`:`, group the local values by prefix, and map the reassembled
`prefix:value` to its position (later duplicates overwrite). -/
def makeGroupedIds (ids : List String) : Except String GroupedIds := do
  let rec go (i : Nat) (rest : List String) (acc : GroupedIds) :
      Except String GroupedIds :=
    match rest with
    | [] => Except.ok acc
    | id :: rest => do
      let p0 ← pyIndex (pySplit id ':') 0
      let p1 ← pyIndex (pySplit id ':') 1
      go (i + 1) rest
        ⟨dictAppend acc.id_dict p0 p1,
         dictSet acc.id_idx_dict (p0 ++ ":" ++ p1) i⟩
  go 0 ids ⟨[], []⟩

/-- The per-group loop of `CompoundOntologyConverter.convert` for one
batch: for each prefix group (in insertion order), query `MyChemical`
with the re-prefixed ids and fold `compoundStep` over its results. -/
def compoundGroupLoop (resolver : String → List String → List CompoundResult) :
    List (String × List String) →
    Except String (List FailedId × List (ConvRec CResVal))
  | [] => Except.ok ([], [])
  | (group, gids) :: rest => do
    let (f1, c1) ←
      if gids.isEmpty then Except.ok ([], [])
      else compoundStepAll (resolver group (gids.map (fun x => group ++ ":" ++ x)))
    let (f2, c2) ← compoundGroupLoop resolver rest
    Except.ok (f1 ++ f2, c1 ++ c2)

/-- The batch loop of `CompoundOntologyConverter.convert`. -/
def compoundConvertGo (resolver : String → List String → List CompoundResult) :
    List (List String) →
    Except String (List FailedId × List (ConvRec CResVal))
  | [] => Except.ok ([], [])
  | b :: rest => do
    let grouped ← makeGroupedIds b
    let (f1, c1) ← compoundGroupLoop resolver grouped.id_dict
    let (f2, c2) ← compoundConvertGo resolver rest
    Except.ok (f1 ++ f2, c1 ++ c2)

/-- Python string comparison `a <= b`: lexicographic on code points
(computed on the character lists so concrete runs reduce
definitionally). -/
def lexLe : List Char → List Char → Bool
  | [], _ => true
  | _ :: _, [] => false
  | x :: xs, y :: ys => if x = y then lexLe xs ys else decide (x < y)

/-- Insert into a sorted list (the step of the stable ascending sort). -/
def pyInsert (x : String) : List String → List String
  | [] => [x]
  | y :: ys => if lexLe x.toList y.toList then x :: y :: ys
               else y :: pyInsert x ys

/-- Python `sorted(ids)`: stable ascending sort by code-point order. -/
def pySorted : List String → List String
  | [] => []
  | x :: xs => pyInsert x (pySorted xs)

/-- `CompoundOntologyConverter.convert`: sorts `self._ids`
(`sorted(self._ids)`, a stable ascending sort by code-point order), then
processes the batches sequentially.  The `strategy` argument is carried
by the converter but never consulted in this loop. -/
def compoundConvert (_strategy : Strategy)
    (resolver : String → List String → List CompoundResult)
    (ids : List String) (batchSize : Nat) :
    Except String (List FailedId × List (ConvRec CResVal)) :=
  if batchSize = 0 then Except.error "ValueError: range arg 3 must not be zero"
  else compoundConvertGo resolver
    (chunks batchSize (pySorted ids))

/-! ## The dedup/merge engine (`cli.py`, `dedup` command, lines 181-303)

The input table (read with `dtype=str`) is modelled as a list of rows with
the columns `dedup` touches; a missing (`NaN`) `xrefs`/`synonyms` cell is
`none` (`.str.split` of `NaN` is `NaN`, which the `exists` helper treats
as no list).  `name`, `id` and `label` are modelled as strings (the rows
the engine is designed for carry textual values there; an empty string
behaves like Python falsiness in `exists`).  Python `list(set(...))` in
`merge_ids` has unspecified order; it is modelled as first-occurrence
deduplication — only membership is consumed.  Only the `default` field of
each `OntologyType` is consulted, so `ONTOLOGY_TYPE_DICT` is modelled as a
map from lowercased label to the default database. -/

/-- A row of the dedup input table. -/
structure Row where
  id : String
  name : String
  label : String
  xrefs : Option String
  synonyms : Option String
deriving DecidableEq

/-- `str.lower()` as a `String`. -/
def pyLowerStr (s : String) : String :=
  String.mk (pyLower s)

/-- `ONTOLOGY_TYPE_DICT` restricted to the `default` field used by
`dedup`. -/
def ontologyTypeDict : List (String × String) :=
  [("disease", diseaseDefault), ("gene", geneDefault),
   ("compound", compoundDefault), ("symptom", symptomDefault),
   ("metabolite", metaboliteDefault)]

/-- `x.lower().startswith(default_id_type.lower())`. -/
def startsWithLower (x dflt : String) : Bool :=
  (pyLower dflt).isPrefixOf (pyLower x)

/-- The inner `exists(x, lst)` helper: false on falsy `x` or falsy `lst`,
otherwise `x.lower() in [y.lower() for y in lst]` (every element of the
modelled lists is a string). -/
def existsIn (x : String) (lst : List String) : Bool :=
  if x = "" then false
  else if lst.isEmpty then false
  else (lst.map pyLower).contains (pyLower x)

/-- `cell.split("|")` for a possibly-`NaN` cell: `NaN` propagates through
`.str.split` and is then replaced by `[]` in the `exists` application;
`row["xrefs"].split("|") if isinstance(row["xrefs"], str) else []` behaves
identically. -/
def splitPipeOpt (x : Option String) : List String :=
  match x with
  | some s => pySplit s '|'
  | none => []

/-- `merge_ids(matched_row, row)`:
`"|".join(set([str(row.id)] + row.xrefs.split("|") + matched.xrefs.split("|")))`. -/
def mergeIds (matched : Row) (r : Row) : String :=
  String.intercalate "|"
    (pySetList ([r.id] ++ splitPipeOpt r.xrefs ++ splitPipeOpt matched.xrefs))

/-- `official_df.loc[matched.index, "xrefs"] = ids`: rewrite the `xrefs`
cell of the rows selected by the match predicate (exactly one row when the
guard `shape[0] == 1` held). -/
def updateXrefsWhere (official : List Row) (p : Row → Bool) (v : String) :
    List Row :=
  official.map (fun o =>
    if p o then Row.mk o.id o.name o.label (some v) o.synonyms else o)

/-- The match predicate of rule (i): the unofficial row's id occurs in an
official row's pipe-separated `xrefs`. -/
def xrefPred (r : Row) (o : Row) : Bool :=
  existsIn r.id (splitPipeOpt o.xrefs)

/-- The match predicate of the `matched_row_by_name` rule: the unofficial
row's name occurs in an official row's pipe-split `name`. -/
def namePred (r : Row) (o : Row) : Bool :=
  existsIn r.name (pySplit o.name '|')

/-- The match predicate of the `matched_row_by_synonyms` rule. -/
def synonymPred (r : Row) (o : Row) : Bool :=
  existsIn r.name (splitPipeOpt o.synonyms)

/-- The body of `for idx, row in unofficial_df.iterrows()` (lines
241-294): compute the three candidate sets against the current
`official_df`, then branch `if xrefs: ... elif name: ... elif synonyms:
... else: remaining += row`, merging only when the branch's candidate set
is a singleton. -/
def dedupStep (official remaining : List Row) (r : Row) :
    List Row × List Row :=
  let mx := official.filter (xrefPred r)
  let mn := official.filter (namePred r)
  let ms := official.filter (synonymPred r)
  if mx.length > 0 then
    match mx with
    | [m] => (updateXrefsWhere official (xrefPred r) (mergeIds m r), remaining)
    | _ => (official, remaining)
  else if mn.length > 0 then
    match mn with
    | [m] => (updateXrefsWhere official (namePred r) (mergeIds m r), remaining)
    | _ => (official, remaining)
  else if ms.length > 0 then
    match ms with
    | [m] => (updateXrefsWhere official (synonymPred r) (mergeIds m r), remaining)
    | _ => (official, remaining)
  else
    (official, remaining ++ [r])

/-- Fold `dedupStep` over the unofficial rows (the `remaining_df`
accumulator starts empty). -/
def processUnofficial (official remaining : List Row) :
    List Row → List Row × List Row
  | [] => (official, remaining)
  | r :: rest =>
    let (official2, remaining2) := dedupStep official remaining r
    processUnofficial official2 remaining2 rest

/-- The per-label body of `dedup`: unknown labels are passed through;
known labels with a single row are skipped entirely (`continue`); other
groups contribute the pre-merge official copy (line 220), then the
remaining bucket and the merged official rows (line 296). -/
def dedupOneLabel (rows : List Row) (l : String) : List Row :=
  let sub := rows.filter (fun r => r.label = l)
  match ontologyTypeDict.lookup (pyLowerStr l) with
  | none => sub
  | some dflt =>
    if sub.length = 1 then []
    else
      let unofficialIds :=
        (sub.map Row.id).filter (fun x => ! startsWithLower x dflt)
      let unofficial := sub.filter (fun r => r.id ∈ unofficialIds)
      let official := sub.filter (fun r => r.id ∉ unofficialIds)
      let (official2, remaining) := processUnofficial official [] unofficial
      official ++ remaining ++ official2

/-- First-seen order of distinct elements (`pd.Series.unique`). -/
def uniqueFirstAux {α : Type} [DecidableEq α] (seen : List α) :
    List α → List α
  | [] => []
  | x :: xs =>
    if x ∈ seen then uniqueFirstAux seen xs
    else x :: uniqueFirstAux (x :: seen) xs

/-- `entities["label"].unique()`. -/
def uniqueFirst {α : Type} [DecidableEq α] (l : List α) : List α :=
  uniqueFirstAux [] l

/-- The label loop of `dedup`. -/
def dedupLabels (rows : List Row) : List String → List Row
  | [] => []
  | l :: ls => dedupOneLabel rows l ++ dedupLabels rows ls

/-- `final_df.drop_duplicates(subset=["id", "label"], keep="last")`:
keep a row iff no later row shares its `(id, label)` key. -/
def dropDupKeepLast : List Row → List Row
  | [] => []
  | r :: rest =>
    if rest.any (fun s => s.id = r.id && s.label = r.label) then
      dropDupKeepLast rest
    else r :: dropDupKeepLast rest

/-- The `dedup` command's core (after reading the table and checking the
required columns): per-label processing followed by the global
keep-last deduplication on `(id, label)`. -/
def dedup (rows : List Row) : List Row :=
  dropDupKeepLast (dedupLabels rows (uniqueFirst (rows.map Row.label)))

/-! ## The snapshot JSON round trip
(`CustomJSONEncoder` / `CustomJSONDecoder`, `ontology_formatter.py`)

`JVal` is the wire format written by `json.dump`; `DVal` is the Python
value domain on both sides of the serialization: plain JSON-able values
plus the `ConvertedId`/`FailedId`/`ConversionResult`/`pd.DataFrame`
objects handled by the custom encoder and rebuilt by the custom decoder's
`object_hook` (which `json.load` applies bottom-up).  A `ConvertedId` is
its `__dict__`: the annotated fields `idx`, `raw_id`, `metadata` (set
first by `from_args`) followed by the dynamically attached
database-keyed extras; a `DataFrame` is represented by its `to_dict()`
payload.  Mutual inductives (instead of nested `List`) keep every
function structurally recursive, hence definitionally evaluable. -/

mutual
inductive JVal where
  | jnull
  | jstr (s : String)
  | jint (n : Int)
  | jarr (xs : JList)
  | jobj (kvs : JObj)
deriving DecidableEq
inductive JList where
  | nil
  | cons (v : JVal) (rest : JList)
deriving DecidableEq
inductive JObj where
  | nil
  | cons (k : String) (v : JVal) (rest : JObj)
deriving DecidableEq
end

mutual
inductive DVal where
  | pynone
  | pystr (s : String)
  | pyint (n : Int)
  | pylist (xs : DList)
  | pydict (kvs : DObj)
  | pyConvertedId (idx : DVal) (raw_id : DVal) (metadata : DVal) (extras : DObj)
  | pyFailedId (idx : DVal) (fid : DVal) (reason : DVal)
  | pyConversionResult (ids : DVal) (strategy : Strategy)
      (default_database : DVal) (converted_ids : DVal) (databases : DVal)
      (database_url : DVal) (failed_ids : DVal)
  | pyDataFrame (kvs : DObj)
deriving DecidableEq
inductive DList where
  | nil
  | cons (v : DVal) (rest : DList)
deriving DecidableEq
inductive DObj where
  | nil
  | cons (k : String) (v : DVal) (rest : DObj)
deriving DecidableEq
end

/-- `"Mixture" if obj.strategy == Strategy.MIXTURE else "Unique"`. -/
def strategyName (s : Strategy) : String :=
  match s with
  | Strategy.MIXTURE => "Mixture"
  | Strategy.UNIQUE => "Unique"

mutual
/-- `json.dump(obj, cls=CustomJSONEncoder)`: native JSON encoding of
`None`/`str`/`int`/`list`/`dict`, with the `default` method handling
`ConversionResult` (the seven-key dict of encoder lines 108-116, strategy
as its string name), `ConvertedId`/`FailedId` (their `__dict__`) and
`pd.DataFrame` (its `to_dict()`). -/
def encodeVal : DVal → JVal
  | DVal.pynone => JVal.jnull
  | DVal.pystr s => JVal.jstr s
  | DVal.pyint n => JVal.jint n
  | DVal.pylist xs => JVal.jarr (encodeList xs)
  | DVal.pydict kvs => JVal.jobj (encodeObj kvs)
  | DVal.pyConvertedId i r m extras =>
    JVal.jobj (JObj.cons "idx" (encodeVal i)
      (JObj.cons "raw_id" (encodeVal r)
        (JObj.cons "metadata" (encodeVal m) (encodeObj extras))))
  | DVal.pyFailedId i d rsn =>
    JVal.jobj (JObj.cons "idx" (encodeVal i)
      (JObj.cons "id" (encodeVal d)
        (JObj.cons "reason" (encodeVal rsn) JObj.nil)))
  | DVal.pyConversionResult ids strat dd ci dbs url fi =>
    JVal.jobj (JObj.cons "ids" (encodeVal ids)
      (JObj.cons "strategy" (JVal.jstr (strategyName strat))
        (JObj.cons "default_database" (encodeVal dd)
          (JObj.cons "converted_ids" (encodeVal ci)
            (JObj.cons "databases" (encodeVal dbs)
              (JObj.cons "database_url" (encodeVal url)
                (JObj.cons "failed_ids" (encodeVal fi) JObj.nil)))))))
  | DVal.pyDataFrame kvs => JVal.jobj (encodeObj kvs)
def encodeList : DList → JList
  | DList.nil => JList.nil
  | DList.cons v rest => JList.cons (encodeVal v) (encodeList rest)
def encodeObj : DObj → JObj
  | DObj.nil => JObj.nil
  | DObj.cons k v rest => JObj.cons k (encodeVal v) (encodeObj rest)
end

/-- `k in obj`. -/
def DObj.hasKey : DObj → String → Bool
  | DObj.nil, _ => false
  | DObj.cons k0 _ rest, k => k0 = k || DObj.hasKey rest k

/-- First binding of a key (the decoded Python dict cannot carry duplicate
keys, so first = only). -/
def DObj.lookup : DObj → String → Option DVal
  | DObj.nil, _ => none
  | DObj.cons k0 v rest, k => if k0 = k then some v else DObj.lookup rest k

/-- All the listed keys are present. -/
def DObj.hasAll (o : DObj) (ks : List String) : Bool :=
  ks.all (fun k => o.hasKey k)

/-- Drop the bindings whose key occurs in `ks` (the annotated-field pop of
`ConvertedId.from_args`). -/
def DObj.eraseKeys : DObj → List String → DObj
  | DObj.nil, _ => DObj.nil
  | DObj.cons k v rest, ks =>
    if ks.contains k then DObj.eraseKeys rest ks
    else DObj.cons k v (DObj.eraseKeys rest ks)

/-- `obj[k]` on a decoded dict: `KeyError` when absent. -/
def pyGetKey (o : DObj) (k : String) : Except String DVal :=
  match o.lookup k with
  | some v => Except.ok v
  | none => Except.error "KeyError"

/-- `pd.DataFrame.from_dict(x)`: accepts a plain dict, raises otherwise
(in particular on `None`, so a snapshot whose `formatted_data` was empty
does not reload). -/
def frameFromDict (v : DVal) : Except String DObj :=
  match v with
  | DVal.pydict kvs => Except.ok kvs
  | _ => Except.error "ValueError: DataFrame constructor not properly called"

/-- Subscripting `cr[...]` requires the conversion-result entry to still be
a plain dict. -/
def asPlainDict (v : DVal) : Except String DObj :=
  match v with
  | DVal.pydict kvs => Except.ok kvs
  | _ => Except.error "TypeError: object is not subscriptable"

/-- The keys the first `object_hook` branch tests for. -/
def snapshotKeys : List String :=
  ["conversion_result", "formatted_data", "failed_formatted_data",
   "filepath", "data"]

/-- The keys of the `ConvertedId` branch. -/
def convertedIdKeys : List String := ["idx", "raw_id", "metadata"]

/-- The keys of the `FailedId` branch. -/
def failedIdKeys : List String := ["idx", "id", "reason"]

/-- `CustomJSONDecoder.object_hook`: rebuild the snapshot dict (with
`Strategy` reconstructed from its string name, `DataFrame`s from their
dicts and the `ConversionResult` from the inner dict's seven keys), a
`ConvertedId` via `from_args` (annotated fields popped, the rest kept as
extras), or a `FailedId`; any other object passes through unchanged. -/
def objectHook (o : DObj) : Except String DVal :=
  if o.hasAll snapshotKeys then do
    let dataD ← frameFromDict (← pyGetKey o "data")
    let fdD ← frameFromDict (← pyGetKey o "formatted_data")
    let ffdD ← frameFromDict (← pyGetKey o "failed_formatted_data")
    let fp ← pyGetKey o "filepath"
    let crD ← asPlainDict (← pyGetKey o "conversion_result")
    let ids ← pyGetKey crD "ids"
    let stratV ← pyGetKey crD "strategy"
    let dd ← pyGetKey crD "default_database"
    let ci ← pyGetKey crD "converted_ids"
    let dbs ← pyGetKey crD "databases"
    let url ← pyGetKey crD "database_url"
    let fi ← pyGetKey crD "failed_ids"
    Except.ok (DVal.pydict
      (DObj.cons "conversion_result"
        (DVal.pyConversionResult ids
          (if stratV = DVal.pystr "Mixture" then Strategy.MIXTURE
           else Strategy.UNIQUE) dd ci dbs url fi)
        (DObj.cons "formatted_data" (DVal.pyDataFrame fdD)
          (DObj.cons "failed_formatted_data" (DVal.pyDataFrame ffdD)
            (DObj.cons "filepath" fp
              (DObj.cons "data" (DVal.pyDataFrame dataD) DObj.nil))))))
  else if o.hasAll convertedIdKeys then do
    let i ← pyGetKey o "idx"
    let r ← pyGetKey o "raw_id"
    let m ← pyGetKey o "metadata"
    Except.ok (DVal.pyConvertedId i r m (o.eraseKeys convertedIdKeys))
  else if o.hasAll failedIdKeys then do
    let i ← pyGetKey o "idx"
    let d ← pyGetKey o "id"
    let rsn ← pyGetKey o "reason"
    Except.ok (DVal.pyFailedId i d rsn)
  else
    Except.ok (DVal.pydict o)

mutual
/-- `json.load(..., cls=CustomJSONDecoder)`: parse and apply
`object_hook` to every object, innermost first. -/
def decodeVal : JVal → Except String DVal
  | JVal.jnull => Except.ok DVal.pynone
  | JVal.jstr s => Except.ok (DVal.pystr s)
  | JVal.jint n => Except.ok (DVal.pyint n)
  | JVal.jarr xs => do
    let ys ← decodeList xs
    Except.ok (DVal.pylist ys)
  | JVal.jobj kvs => do
    let ds ← decodeObj kvs
    objectHook ds
def decodeList : JList → Except String DList
  | JList.nil => Except.ok DList.nil
  | JList.cons v rest => do
    let d ← decodeVal v
    let ds ← decodeList rest
    Except.ok (DList.cons d ds)
def decodeObj : JObj → Except String DObj
  | JObj.nil => Except.ok DObj.nil
  | JObj.cons k v rest => do
    let d ← decodeVal v
    let ds ← decodeObj rest
    Except.ok (DObj.cons k d ds)
end

/-- The keys of an object. -/
def DObj.keys : DObj → List String
  | DObj.nil => []
  | DObj.cons k _ rest => k :: DObj.keys rest

mutual
/-- The serializable fragment that round-trips through one
encode/decode: plain values whose dicts do not accidentally trigger an
`object_hook` branch, plus `ConvertedId`s whose extras stay clear of the
hook-reserved keys, and `FailedId`s.  (A bare `ConversionResult` or
`DataFrame` does not round-trip — the hook only rebuilds them inside the
snapshot object — so they are outside the fragment.) -/
def safeVal : DVal → Bool
  | DVal.pynone => true
  | DVal.pystr _ => true
  | DVal.pyint _ => true
  | DVal.pylist xs => safeList xs
  | DVal.pydict kvs =>
    safeObj kvs && !(DObj.hasAll kvs snapshotKeys)
      && !(DObj.hasAll kvs convertedIdKeys)
      && !(DObj.hasAll kvs failedIdKeys)
  | DVal.pyConvertedId i r m extras =>
    safeVal i && safeVal r && safeVal m && safeObj extras
      && (DObj.keys extras).all (fun k =>
            !(convertedIdKeys.contains k) && !(snapshotKeys.contains k))
  | DVal.pyFailedId i d rsn => safeVal i && safeVal d && safeVal rsn
  | DVal.pyConversionResult _ _ _ _ _ _ _ => false
  | DVal.pyDataFrame _ => false
def safeList : DList → Bool
  | DList.nil => true
  | DList.cons v rest => safeVal v && safeList rest
def safeObj : DObj → Bool
  | DObj.nil => true
  | DObj.cons _ v rest => safeVal v && safeObj rest
end

/-- Every element is a `ConvertedId` of the serializable fragment. -/
def allConvertedIds : DList → Bool
  | DList.nil => true
  | DList.cons v rest =>
    (match v with
     | DVal.pyConvertedId _ _ _ _ => safeVal v
     | _ => false) && allConvertedIds rest

/-- Every element is a `FailedId` of the serializable fragment. -/
def allFailedIds : DList → Bool
  | DList.nil => true
  | DList.cons v rest =>
    (match v with
     | DVal.pyFailedId _ _ _ => safeVal v
     | _ => false) && allFailedIds rest

/-- The object written by `BaseOntologyFormatter.save_to_json` (its five
keys in source order). -/
def snapshotObj (cr fd ffd fp data : DVal) : DVal :=
  DVal.pydict
    (DObj.cons "conversion_result" cr
      (DObj.cons "formatted_data" fd
        (DObj.cons "failed_formatted_data" ffd
          (DObj.cons "filepath" fp
            (DObj.cons "data" data DObj.nil)))))

/-! ## Concrete instances used by counterexamples and witnesses -/

/-- A `MyChemical` resolver producing `parse`-shaped output: one result
per queried id, in query order, with `"idx"` the position within the
group query list and `"raw_id"` the queried item; the `DrugBank` default
entry is always two-valued, so every id fails with "Multiple results
found". -/
def c1CompoundResolver : String → List String → List CompoundResult :=
  fun _ gids => (gids.enum).map (fun p =>
    [("idx", CResVal.rint p.1), ("raw_id", CResVal.rstr p.2),
     ("metadata", CResVal.rdict),
     ("DrugBank", CResVal.rlist ["DrugBank:DB00316", "DrugBank:DB00317"])])

/-- A `MyChemical` resolver returning, for any group, one result with a
singleton `DrugBank` value but two `UMLS` candidates. -/
def c4Resolver : String → List String → List CompoundResult :=
  fun _ _ =>
    [[("metadata", CResVal.rdict),
      ("DrugBank", CResVal.rlist ["DrugBank:DB00316"]),
      ("MESH", CResVal.rlist ["MESH:D004249"]),
      ("UMLS", CResVal.rlist ["UMLS:C0000970", "UMLS:C0699142"]),
      ("idx", CResVal.rint 0),
      ("raw_id", CResVal.rstr "MESH:D004249")]]

/-- An OXO resolver whose every search result carries an empty
`mappingResponseList` (so each id fails with "No results found"). -/
def c10Resolver : List String → Except String (List (List String)) :=
  fun batch => Except.ok (batch.map (fun _ => []))

/-- A one-row mygene table used to instantiate the gene theorems. -/
def c10GeneTable : List GRow :=
  [[("ENTREZ", GCell.cell (GAtom.astr "1")),
    ("ENSEMBL", GCell.cell GAtom.anone)]]

/-! # Theorems -/

/-! ## Validation and construction lemmas -/

theorem checkIdsAux_eq_nil_iff (dbs : List String) (i : Nat)
    (ids : List String) :
    checkIdsAux dbs i ids = [] ↔
      ∀ id ∈ ids, matchIdPattern dbs id = true := by
  induction ids generalizing i with
  | nil => simp [checkIdsAux]
  | cons id rest ih =>
    constructor
    · intro h
      simp only [checkIdsAux] at h
      obtain ⟨h1, h2⟩ := List.append_eq_nil.mp h
      intro x hx
      rcases List.mem_cons.mp hx with rfl | hx
      · by_contra hb
        simp only [Bool.not_eq_true] at hb
        simp [hb] at h1
      · exact (ih (i + 1)).mp h2 x hx
    · intro hall
      simp only [checkIdsAux]
      rw [List.append_eq_nil]
      constructor
      · simp [hall id (List.mem_cons_self _ _)]
      · exact (ih (i + 1)).mpr (fun x hx => hall x (List.mem_cons_of_mem _ hx))

theorem checkIdsAux_mem (dbs : List String) (i j : Nat) (ids : List String)
    (id : String) (hj : ids[j]? = some id)
    (hbad : matchIdPattern dbs id = false) :
    (⟨i + j, id, badFormatReason dbs⟩ : CheckFailure) ∈ checkIdsAux dbs i ids := by
  induction ids generalizing i j with
  | nil => simp at hj
  | cons hd rest ih =>
    cases j with
    | zero =>
      simp at hj
      subst hj
      simp only [checkIdsAux, Nat.add_zero]
      exact List.mem_append_left _ (by simp [hbad])
    | succ j =>
      simp at hj
      have h2 := ih (i + 1) j hj
      have harith : i + 1 + j = i + (j + 1) := by omega
      rw [harith] at h2
      simp only [checkIdsAux]
      exact List.mem_append_right _ h2

theorem converterInit_of_checkBatch_ok (choices : List String)
    (cb : Nat → Except String Unit) (input : List PyObj) (bs : Nat)
    (h : cb bs = Except.ok ()) :
    converterInit choices cb input bs =
      (if (checkIds choices (pyFilterIds input)).isEmpty then
        Except.ok (pyFilterIds input)
       else
        Except.error
          (InitError.invalidIds (checkIds choices (pyFilterIds input)))) := by
  unfold converterInit
  rw [h]

theorem pyFilterIds_mem (input : List PyObj) (id : String)
    (h : id ∈ pyFilterIds input) : PyObj.pstr id ∈ input := by
  induction input with
  | nil => simp [pyFilterIds] at h
  | cons x rest ih =>
    cases x with
    | pstr s =>
      by_cases hs : s = ""
      · subst hs
        simp [pyFilterIds] at h
        exact List.mem_cons_of_mem _ (ih h)
      · simp [pyFilterIds, hs] at h
        rcases h with h | h
        · subst h; exact List.mem_cons_self _ _
        · exact List.mem_cons_of_mem _ (ih h)
    | other =>
      simp [pyFilterIds] at h
      exact List.mem_cons_of_mem _ (ih h)

/-! ## String-split and pattern lemmas -/

theorem splitCharAux_no_sep (c : Char) :
    ∀ (b acc : List Char), c ∉ b →
      splitCharAux c acc b = [acc.reverse ++ b]
  | [], acc, _ => by simp [splitCharAux]
  | x :: xs, acc, h => by
    have hx : ¬ (x = c) := by
      intro he
      exact h (he ▸ List.mem_cons_self x xs)
    have hxs : c ∉ xs := fun hc => h (List.mem_cons_of_mem _ hc)
    simp only [splitCharAux, if_neg hx]
    rw [splitCharAux_no_sep c xs (x :: acc) hxs]
    simp

theorem splitCharAux_mid (c : Char) :
    ∀ (a acc b : List Char), c ∉ a → c ∉ b →
      splitCharAux c acc (a ++ c :: b) = [acc.reverse ++ a, b]
  | [], acc, b, _, hb => by
    simp only [List.nil_append, splitCharAux, if_pos rfl]
    rw [splitCharAux_no_sep c b [] hb]
    simp
  | x :: xs, acc, b, ha, hb => by
    have hx : ¬ (x = c) := by
      intro he
      exact ha (he ▸ List.mem_cons_self x xs)
    have hxs : c ∉ xs := fun hc => ha (List.mem_cons_of_mem _ hc)
    simp only [List.cons_append, splitCharAux, if_neg hx, List.append_eq]
    rw [splitCharAux_mid c xs (x :: acc) b hxs hb]
    simp

theorem matchOneL_decomp :
    ∀ (d l : List Char), matchOneL d l = true →
      ∃ rest, l = d ++ ':' :: rest ∧ rest ≠ [] ∧ rest.all isIdChar = true
  | [], l, h => by
    cases l with
    | nil => simp [matchOneL] at h
    | cons x rest =>
      simp only [matchOneL, Bool.and_eq_true, decide_eq_true_eq] at h
      obtain ⟨⟨hx, hne⟩, hall⟩ := h
      refine ⟨rest, by simp [hx], ?_, hall⟩
      intro hnil
      subst hnil
      simp at hne
  | d :: ds, l, h => by
    cases l with
    | nil => simp [matchOneL] at h
    | cons x xs =>
      simp only [matchOneL, Bool.and_eq_true, decide_eq_true_eq] at h
      obtain ⟨hx, hm⟩ := h
      obtain ⟨rest, hrest, hne, hall⟩ := matchOneL_decomp ds xs hm
      exact ⟨rest, by simp [hx, hrest], hne, hall⟩

theorem stringMk_toList (s : String) : String.mk s.toList = s := rfl

theorem no_colon_of_all_isIdChar (rest : List Char)
    (h : rest.all isIdChar = true) : ':' ∉ rest := by
  intro hc
  have := List.all_eq_true.mp h ':' hc
  simp [isIdChar] at this

theorem pySplit_of_matchOne (db id : String)
    (h : matchOneL db.toList id.toList = true) (hdb : ':' ∉ db.toList) :
    ∃ v : String, pySplit id ':' = [db, v] := by
  obtain ⟨rest, hdec, _, hall⟩ := matchOneL_decomp db.toList id.toList h
  refine ⟨String.mk rest, ?_⟩
  unfold pySplit
  rw [hdec, splitCharAux_mid ':' db.toList [] rest hdb
    (no_colon_of_all_isIdChar rest hall)]
  simp [stringMk_toList]

theorem matchIdPattern_split (dbs : List String) (id : String)
    (hnc : ∀ db ∈ dbs, ':' ∉ db.toList)
    (h : matchIdPattern dbs id = true) :
    ∃ db ∈ dbs, ∃ v, pySplit id ':' = [db, v] := by
  obtain ⟨db, hmem, hm⟩ := List.any_eq_true.mp h
  obtain ⟨v, hv⟩ := pySplit_of_matchOne db id hm (hnc db hmem)
  exact ⟨db, hmem, v, hv⟩

/-! ## Disease-converter lemmas -/

theorem exMapM_length {α β : Type} (f : α → Except String β) :
    ∀ (l : List α) (out : List β), exMapM f l = Except.ok out →
      out.length = l.length
  | [], out, h => by
    simp only [exMapM] at h
    cases h
    rfl
  | x :: xs, out, h => by
    simp only [exMapM] at h
    cases hx : f x with
    | error e => rw [hx] at h; simp only [bind, Except.bind] at h; simp at h
    | ok y =>
      rw [hx] at h
      cases hxs : exMapM f xs with
      | error e => rw [hxs] at h; simp only [bind, Except.bind] at h ⊢; simp at h
      | ok ys =>
        rw [hxs] at h
        simp only [bind, Except.bind, pure, Except.pure] at h
        cases h
        simp [exMapM_length f xs ys hxs]

theorem diseaseChoiceLoop_some (strat : Strategy) (dflt : String) (i : Nat)
    (id : String) (mrl : List String) :
    ∀ (cs : List String) (dbs : List (String × DBVal)) (b : Bool)
      (f : FailedId) (rest2 : List (String × DBVal)) (b2 : Bool),
      diseaseChoiceLoop strat dflt i id mrl cs dbs b =
        Except.ok (some f, rest2, b2) →
      f.idx = i ∧ f.id = id ∧
        (f.reason = multipleResultsReason ∨ f.reason = uniqueStrategyReason)
  | [], dbs, b, f, rest2, b2, h => by simp [diseaseChoiceLoop] at h
  | choice :: rest, dbs, b, f, rest2, b2, h => by
    simp only [diseaseChoiceLoop] at h
    by_cases hm : (mrl.filter (fun x => matchesChoice choice x)).length > 0
    · rw [if_pos hm] at h
      cases hex : exMapM (curieLocal choice)
          (mrl.filter (fun x => matchesChoice choice x)) with
      | error e => rw [hex] at h; simp only [bind, Except.bind] at h; simp at h
      | ok lst =>
        rw [hex] at h
        simp only [bind, Except.bind] at h
        by_cases h1 : choice = dflt ∧ lst.length > 1
        · rw [if_pos h1] at h
          cases h
          exact ⟨rfl, rfl, Or.inl rfl⟩
        · rw [if_neg h1] at h
          by_cases h2 : strat = Strategy.UNIQUE ∧ lst.length > 1
          · rw [if_pos h2] at h
            cases h
            exact ⟨rfl, rfl, Or.inr rfl⟩
          · rw [if_neg h2] at h
            exact diseaseChoiceLoop_some strat dflt i id mrl rest _ _ f
              rest2 b2 h
    · rw [if_neg hm] at h
      exact diseaseChoiceLoop_some strat dflt i id mrl rest _ _ f rest2 b2 h

theorem diseaseChoiceLoop_default_head (strat : Strategy) (dflt : String)
    (i : Nat) (id : String) (mrl : List String) (rest : List String)
    (dbs : List (String × DBVal)) (b : Bool)
    (hlen : (mrl.filter (fun x => matchesChoice dflt x)).length > 1) :
    ∀ out, diseaseChoiceLoop strat dflt i id mrl (dflt :: rest) dbs b =
        Except.ok out →
      out = (some ⟨i, id, multipleResultsReason⟩, [], true) := by
  intro out h
  simp only [diseaseChoiceLoop] at h
  rw [if_pos (by omega :
    (mrl.filter (fun x => matchesChoice dflt x)).length > 0)] at h
  cases hex : exMapM (curieLocal dflt)
      (mrl.filter (fun x => matchesChoice dflt x)) with
  | error e => rw [hex] at h; simp only [bind, Except.bind] at h; simp at h
  | ok lst =>
    rw [hex] at h
    simp only [bind, Except.bind] at h
    have hlst := exMapM_length (curieLocal dflt) _ lst hex
    simp only [eq_self_iff_true, true_and] at h
    rw [if_pos (by omega : lst.length > 1)] at h
    cases h
    rfl

theorem diseaseProcessOne_inl_valid (strat : Strategy) (cs : List String)
    (dflt : String) (sr : List (List String)) (i : Nat) (id : String)
    (f : FailedId) (db v : String)
    (hsplit : pySplit id ':' = [db, v]) (hdb : db ∈ cs)
    (h : diseaseProcessOne strat cs dflt sr i id = Except.ok (Sum.inl f)) :
    f.reason = noResultsReason ∨ f.reason = multipleResultsReason ∨
      f.reason = uniqueStrategyReason := by
  simp only [diseaseProcessOne, hsplit, pyUnpack2, bind, Except.bind] at h
  rw [if_pos hdb] at h
  split at h
  · simp at h
  · split at h
    · cases h
      exact Or.inl rfl
    · split at h
      · simp at h
      · split at h
        · cases h
          rename_i heqloop
          have hs := diseaseChoiceLoop_some strat dflt i id _ _ _ _ _ _ _
            heqloop
          exact Or.inr hs.2.2
        · simp at h

theorem disease_dbs_no_colon : ∀ db ∈ diseaseChoices, ':' ∉ db.toList := by
  decide

theorem gene_dbs_no_colon : ∀ db ∈ geneChoices, ':' ∉ db.toList := by
  decide

theorem diseaseFormatResponseGo_valid_reasons (strat : Strategy)
    (sr : List (List String)) :
    ∀ (batch : List String) (i : Nat) (fs : List FailedId)
      (convs : List (ConvRec DBVal)),
      (∀ id ∈ batch, matchIdPattern diseaseChoices id = true) →
      diseaseFormatResponseGo strat diseaseChoices diseaseDefault sr i batch =
        Except.ok (fs, convs) →
      ∀ f ∈ fs, f.reason = noResultsReason ∨
        f.reason = multipleResultsReason ∨ f.reason = uniqueStrategyReason
  | [], i, fs, convs, _, h => by
    simp only [diseaseFormatResponseGo] at h
    cases h
    intro f hf
    simp at hf
  | id :: rest, i, fs, convs, hval, h => by
    simp only [diseaseFormatResponseGo, bind, Except.bind] at h
    split at h
    · simp at h
    · rename_i r hr
      split at h
      · simp at h
      · rename_i pair hrec
        obtain ⟨fs2, cs2⟩ := pair
        have ih := diseaseFormatResponseGo_valid_reasons strat sr rest (i + 1)
          fs2 cs2 (fun x hx => hval x (List.mem_cons_of_mem _ hx)) hrec
        obtain ⟨db, hdb, v, hv⟩ := matchIdPattern_split diseaseChoices id
          disease_dbs_no_colon (hval id (List.mem_cons_self _ _))
        split at h
        · rename_i f0
          cases h
          intro f hf
          rcases List.mem_cons.mp hf with rfl | hf2
          · exact diseaseProcessOne_inl_valid strat diseaseChoices
              diseaseDefault sr i id f db v hv hdb hr
          · exact ih f hf2
        · rename_i c0
          cases h
          intro f hf
          exact ih f hf

theorem chunksFuel_mem {α : Type} (bs : Nat) :
    ∀ (fuel : Nat) (l : List α) (b : List α), b ∈ chunksFuel bs fuel l →
      ∀ x ∈ b, x ∈ l
  | _, [], b, hb => by simp [chunksFuel] at hb
  | 0, _ :: _, b, hb => by simp [chunksFuel] at hb
  | fuel + 1, y :: ys, b, hb => by
    simp only [chunksFuel] at hb
    rcases List.mem_cons.mp hb with rfl | hb2
    · exact fun x hx => List.take_subset _ _ hx
    · intro x hx
      have := chunksFuel_mem bs fuel (ys.drop (bs - 1)) b hb2 x hx
      exact List.mem_cons_of_mem _ (List.drop_subset _ _ this)

theorem diseaseConvertGo_reasons (strat : Strategy)
    (resolver : List String → Except String (List (List String))) :
    ∀ (batches : List (List String)) (fs : List FailedId)
      (convs : List (ConvRec DBVal)),
      (∀ b ∈ batches, ∀ id ∈ b, matchIdPattern diseaseChoices id = true) →
      diseaseConvertGo strat resolver batches = Except.ok (fs, convs) →
      ∀ f ∈ fs, f.reason = noResultsReason ∨
        f.reason = multipleResultsReason ∨ f.reason = uniqueStrategyReason
  | [], fs, convs, _, h => by
    simp only [diseaseConvertGo] at h
    cases h
    intro f hf
    simp at hf
  | b :: rest, fs, convs, hval, h => by
    simp only [diseaseConvertGo, bind, Except.bind] at h
    split at h
    · simp at h
    · rename_i resp hresp
      split at h
      · simp at h
      · rename_i pair1 hfr
        obtain ⟨f1, c1⟩ := pair1
        split at h
        · simp at h
        · rename_i pair2 hrec
          obtain ⟨f2, c2⟩ := pair2
          cases h
          have hb : ∀ id ∈ b, matchIdPattern diseaseChoices id = true :=
            hval b (List.mem_cons_self _ _)
          have ih := diseaseConvertGo_reasons strat resolver rest f2 c2
            (fun b2 hb2 => hval b2 (List.mem_cons_of_mem _ hb2)) hrec
          intro f hf
          rcases List.mem_append.mp hf with hf1 | hf2
          · simp only [diseaseFormatResponse] at hfr
            split at hfr
            · simp at hfr
            · exact diseaseFormatResponseGo_valid_reasons strat resp b 0 f1
                c1 hb hfr f hf1
          · exact ih f hf2

/-! ## Gene-converter lemmas -/

theorem geneChoiceLoop_some (strat : Strategy) (dflt : String) (i : Nat)
    (id : String) (rows : List GRow) :
    ∀ (cs : List String) (dbs : List (String × GDictVal)) (b : Bool)
      (f : FailedId) (rest2 : List (String × GDictVal)) (b2 : Bool),
      geneChoiceLoop strat dflt i id rows cs dbs b = (some f, rest2, b2) →
      f.idx = i ∧ f.id = id ∧
        (f.reason = multipleResultsReason ∨ f.reason = uniqueStrategyReason)
  | [], dbs, b, f, rest2, b2, h => by simp [geneChoiceLoop] at h
  | choice :: rest, dbs, b, f, rest2, b2, h => by
    simp only [geneChoiceLoop] at h
    split at h
    · split at h
      · cases h
        exact ⟨rfl, rfl, Or.inl rfl⟩
      · split at h
        · cases h
          exact ⟨rfl, rfl, Or.inr rfl⟩
        · exact geneChoiceLoop_some strat dflt i id rows rest _ _ f rest2 b2 h
    · exact geneChoiceLoop_some strat dflt i id rows rest _ _ f rest2 b2 h

theorem geneChoiceLoop_default_head (strat : Strategy) (dflt : String)
    (i : Nat) (id : String) (rows : List GRow) (rest : List String)
    (dbs : List (String × GDictVal)) (b : Bool) (m : List GAtom)
    (hm : geneColMatched rows dflt = some m) (hlen : m.length > 1) :
    ∀ out, geneChoiceLoop strat dflt i id rows (dflt :: rest) dbs b = out →
      out = (some ⟨i, id, multipleResultsReason⟩, [], true) := by
  intro out h
  simp only [geneChoiceLoop] at h
  split at h
  · rename_i a as heq
    rw [hm] at heq
    cases heq
    simp only [eq_self_iff_true, true_and] at h
    rw [if_pos (by simpa using hlen)] at h
    exact h.symm
  · rename_i hnone
    rw [hm] at hnone
    cases m with
    | nil => simp at hlen
    | cons a as => exact absurd rfl (hnone a as)

theorem geneProcessOne_inl_valid (strat : Strategy) (cs : List String)
    (dflt : String) (sr : List GRow) (i : Nat) (id : String)
    (f : FailedId) (db v : String)
    (hsplit : pySplit id ':' = [db, v]) (hdb : db ∈ cs)
    (h : geneProcessOne strat cs dflt sr i id = Except.ok (Sum.inl f)) :
    f.reason = noResultsReason ∨ f.reason = multipleResultsReason ∨
      f.reason = uniqueStrategyReason := by
  simp only [geneProcessOne, hsplit, pyUnpack2, bind, Except.bind] at h
  rw [if_pos hdb] at h
  split at h
  · simp at h
  · split at h
    · cases h
      exact Or.inl rfl
    · split at h
      · rename_i heqloop
        cases h
        have hs := geneChoiceLoop_some strat dflt i id _ _ _ _ _ _ _ heqloop
        exact Or.inr hs.2.2
      · simp at h

theorem geneFormatResponseGo_valid_reasons (strat : Strategy)
    (sr : List GRow) :
    ∀ (batch : List String) (i : Nat) (fs : List FailedId)
      (convs : List (ConvRec GDictVal)),
      (∀ id ∈ batch, matchIdPattern geneChoices id = true) →
      geneFormatResponseGo strat geneChoices geneDefault sr i batch =
        Except.ok (fs, convs) →
      ∀ f ∈ fs, f.reason = noResultsReason ∨
        f.reason = multipleResultsReason ∨ f.reason = uniqueStrategyReason
  | [], i, fs, convs, _, h => by
    simp only [geneFormatResponseGo] at h
    cases h
    intro f hf
    simp at hf
  | id :: rest, i, fs, convs, hval, h => by
    simp only [geneFormatResponseGo, bind, Except.bind] at h
    split at h
    · simp at h
    · rename_i r hr
      split at h
      · simp at h
      · rename_i pair hrec
        obtain ⟨fs2, cs2⟩ := pair
        have ih := geneFormatResponseGo_valid_reasons strat sr rest (i + 1)
          fs2 cs2 (fun x hx => hval x (List.mem_cons_of_mem _ hx)) hrec
        obtain ⟨db, hdb, v, hv⟩ := matchIdPattern_split geneChoices id
          gene_dbs_no_colon (hval id (List.mem_cons_self _ _))
        split at h
        · rename_i f0
          cases h
          intro f hf
          rcases List.mem_cons.mp hf with rfl | hf2
          · exact geneProcessOne_inl_valid strat geneChoices geneDefault sr
              i id f db v hv hdb hr
          · exact ih f hf2
        · rename_i c0
          cases h
          intro f hf
          exact ih f hf

theorem compoundStep_ok_inl (r : CompoundResult)
    (s : Sum FailedId (ConvRec CResVal)) (h : compoundStep r = Except.ok s) :
    s = Sum.inl ⟨cresIdx r, cresRawId r, multipleResultsReason⟩ := by
  simp only [compoundStep] at h
  split at h
  · split at h
    · cases h
      rfl
    · simp at h
  · simp at h

theorem compoundStepAll_mem :
    ∀ (rs : List CompoundResult) (fs : List FailedId)
      (cs : List (ConvRec CResVal)),
      compoundStepAll rs = Except.ok (fs, cs) →
      cs = [] ∧ ∀ f ∈ fs, ∃ j, ∃ hj : j < rs.length,
        compoundStep (rs.get ⟨j, hj⟩) = Except.ok (Sum.inl f)
  | [], fs, cs, h => by
    simp only [compoundStepAll] at h
    cases h
    exact ⟨rfl, by simp⟩
  | r :: rest, fs, cs, h => by
    simp only [compoundStepAll, bind, Except.bind] at h
    split at h
    · simp at h
    · rename_i s hs
      split at h
      · simp at h
      · rename_i pair hrec
        obtain ⟨fs2, cs2⟩ := pair
        have ih := compoundStepAll_mem rest fs2 cs2 hrec
        have hsl := compoundStep_ok_inl r s hs
        subst hsl
        cases h
        refine ⟨ih.1, ?_⟩
        intro f hf
        rcases List.mem_cons.mp hf with rfl | hf2
        · exact ⟨0, by simp, hs⟩
        · obtain ⟨j, hj, hstep⟩ := ih.2 f hf2
          exact ⟨j + 1, by simpa using hj, hstep⟩

theorem compoundGroupLoop_no_converted
    (resolver : String → List String → List CompoundResult) :
    ∀ (gl : List (String × List String)) (fs : List FailedId)
      (cs : List (ConvRec CResVal)),
      compoundGroupLoop resolver gl = Except.ok (fs, cs) → cs = []
  | [], fs, cs, h => by
    simp only [compoundGroupLoop] at h
    cases h
    rfl
  | (g, gids) :: rest, fs, cs, h => by
    simp only [compoundGroupLoop, bind, Except.bind] at h
    split at h
    · split at h
      · simp at h
      · rename_i p2 hp2
        obtain ⟨f2, c2⟩ := p2
        cases h
        simpa using compoundGroupLoop_no_converted resolver rest f2 c2 hp2
    · split at h
      · simp at h
      · rename_i p1 hp1
        obtain ⟨f1, c1⟩ := p1
        split at h
        · simp at h
        · rename_i p2 hp2
          obtain ⟨f2, c2⟩ := p2
          cases h
          have h1 := (compoundStepAll_mem _ f1 c1 hp1).1
          have h2 := compoundGroupLoop_no_converted resolver rest f2 c2 hp2
          simp [h1, h2]

theorem compoundConvertGo_no_converted
    (resolver : String → List String → List CompoundResult) :
    ∀ (batches : List (List String)) (fs : List FailedId)
      (cs : List (ConvRec CResVal)),
      compoundConvertGo resolver batches = Except.ok (fs, cs) → cs = []
  | [], fs, cs, h => by
    simp only [compoundConvertGo] at h
    cases h
    rfl
  | b :: rest, fs, cs, h => by
    simp only [compoundConvertGo, bind, Except.bind] at h
    split at h
    · simp at h
    · rename_i g hg
      split at h
      · simp at h
      · rename_i p1 hp1
        obtain ⟨f1, c1⟩ := p1
        split at h
        · simp at h
        · rename_i p2 hp2
          obtain ⟨f2, c2⟩ := p2
          cases h
          rw [compoundGroupLoop_no_converted resolver _ f1 c1 hp1,
            compoundConvertGo_no_converted resolver rest f2 c2 hp2]
          rfl

/-- C1 (counterexample): a real, complete run of the one constructible
converter (compound; see the C3 bug for the others) whose every
identifier fails the default-multiplicity test: the `FailedId` for
`DrugBank:DB00316` — position 1 of the caller's input list — carries
`idx = 0`, because `convert` sorts the ids, groups them by prefix and
`MyChemical.parse` numbers `idx` by position within the group query
list.  Both failed records carry `idx = 0`, so idx cannot be the
position in the caller's original input list. -/
theorem C1_idx_counterexample :
    compoundConvert Strategy.MIXTURE c1CompoundResolver
      ["MESH:D004249", "DrugBank:DB00316"] 300 =
      Except.ok ([⟨0, "DrugBank:DB00316", multipleResultsReason⟩,
                  ⟨0, "MESH:D004249", multipleResultsReason⟩], []) := by
  rfl

/-- C1 (amended): in every compound `convert` run that returns a
`ConversionResult`, the converted-id list is empty — the emission call
`self.add_converted_id` is undefined and raises `AttributeError`, so a
run containing any convertible identifier crashes instead of returning —
and every `FailedId` produced from a group's parse results (whose `"idx"`
is the position within the group query list and `"raw_id"` the queried
item, as `MyChemical.parse` sets them) carries `idx` equal to the
position of its raw id within that group query list, not the position in
the caller's original input list. -/
theorem C1_idx_group_relative :
    (∀ (strat : Strategy)
      (resolver : String → List String → List CompoundResult)
      (ids : List String) (bs : Nat) (fs : List FailedId)
      (cs : List (ConvRec CResVal)),
      compoundConvert strat resolver ids bs = Except.ok (fs, cs) → cs = [])
    ∧ (∀ (rs : List CompoundResult) (qids : List String)
      (fs : List FailedId) (cs : List (ConvRec CResVal))
      (hlen : rs.length = qids.length),
      (∀ (j : Nat) (hj : j < rs.length),
        cresIdx (rs.get ⟨j, hj⟩) = j ∧
          cresRawId (rs.get ⟨j, hj⟩) = qids.get ⟨j, by omega⟩) →
      compoundStepAll rs = Except.ok (fs, cs) →
      ∀ f ∈ fs, ∃ hf : f.idx < qids.length,
        f.id = qids.get ⟨f.idx, hf⟩) := by
  constructor
  · intro strat resolver ids bs fs cs h
    simp only [compoundConvert] at h
    split at h
    · simp at h
    · exact compoundConvertGo_no_converted resolver _ fs cs h
  · intro rs qids fs cs hlen hshape hall f hf
    obtain ⟨-, hmem⟩ := compoundStepAll_mem rs fs cs hall
    obtain ⟨j, hj, hstep⟩ := hmem f hf
    have hinl := compoundStep_ok_inl (rs.get ⟨j, hj⟩) _ hstep
    injection hinl with hf2
    subst hf2
    obtain ⟨hidx, hraw⟩ := hshape j hj
    have h1 : cresIdx (rs.get ⟨j, hj⟩) < qids.length := by
      rw [hidx]
      omega
    refine ⟨h1, ?_⟩
    rw [hraw]
    simp only [hidx]

/-- C1 witness: the amended theorem applied to concrete runs — a
sorted single-group run returning only failed ids, and a two-id group
whose failed records carry the group positions 0 and 1. -/
theorem C1_idx_group_relative_witness :
    ([] : List (ConvRec CResVal)) = []
    ∧ (∀ f ∈ [(⟨0, "MESH:D004249", multipleResultsReason⟩ : FailedId),
          (⟨1, "MESH:D015161", multipleResultsReason⟩ : FailedId)],
        ∃ hf : f.idx < (["MESH:D004249", "MESH:D015161"] : List String).length,
          f.id = (["MESH:D004249", "MESH:D015161"] : List String).get
            ⟨f.idx, hf⟩) := by
  constructor
  · exact C1_idx_group_relative.1 Strategy.MIXTURE c1CompoundResolver
      ["MESH:D004249"] 300 [⟨0, "MESH:D004249", multipleResultsReason⟩] []
      (by rfl)
  · exact C1_idx_group_relative.2
      (c1CompoundResolver "MESH" ["MESH:D004249", "MESH:D015161"])
      ["MESH:D004249", "MESH:D015161"]
      [⟨0, "MESH:D004249", multipleResultsReason⟩,
       ⟨1, "MESH:D015161", multipleResultsReason⟩] []
      (by rfl) (by decide) (by rfl)

/-- C10: if the ids accepted by construction-time validation
(`_check_ids` collecting nothing) are the ones converted, the "Invalid
prefix" branch is unreachable: no `FailedId` of the disease converter's
`convert`, nor of the gene converter's `_format_response` run on a batch
drawn from validated ids, carries the invalid-prefix reason.  (Stated via
the validation predicate because construction as a whole can never
succeed for these converters — see the C3 batch-size bug; validation is
the phase the claim rests on.) -/
theorem C10_invalid_prefix_unreachable :
    (∀ (strategy : Strategy)
      (resolver : List String → Except String (List (List String)))
      (ids : List String) (bs : Nat) (fs : List FailedId)
      (convs : List (ConvRec DBVal)),
      checkIds diseaseChoices ids = [] →
      diseaseConvert strategy resolver ids bs = Except.ok (fs, convs) →
      ∀ f ∈ fs, f.reason ≠ invalidPrefixReason diseaseChoices)
    ∧ (∀ (strategy : Strategy) (table : List GRow)
      (ids batchIds : List String) (fs : List FailedId)
      (convs : List (ConvRec GDictVal)),
      checkIds geneChoices ids = [] →
      (∀ id ∈ batchIds, id ∈ ids) →
      geneFormatResponse strategy table batchIds = Except.ok (fs, convs) →
      ∀ f ∈ fs, f.reason ≠ invalidPrefixReason geneChoices) := by
  constructor
  · intro strategy resolver ids bs fs convs hchk hconv f hf
    have hall : ∀ id ∈ ids, matchIdPattern diseaseChoices id = true :=
      (checkIdsAux_eq_nil_iff diseaseChoices 0 ids).mp hchk
    simp only [diseaseConvert] at hconv
    split at hconv
    · simp at hconv
    · have hval : ∀ b ∈ chunks bs ids, ∀ id ∈ b,
          matchIdPattern diseaseChoices id = true :=
        fun b hb id hid =>
          hall id (chunksFuel_mem bs ids.length ids b hb id hid)
      have := diseaseConvertGo_reasons strategy resolver (chunks bs ids) fs
        convs hval hconv f hf
      rcases this with h1 | h1 | h1 <;> rw [h1] <;> decide
  · intro strategy table ids batchIds fs convs hchk hsub hfr f hf
    have hall : ∀ id ∈ batchIds, matchIdPattern geneChoices id = true :=
      fun id hid =>
        ((checkIdsAux_eq_nil_iff geneChoices 0 ids).mp hchk) id (hsub id hid)
    simp only [geneFormatResponse] at hfr
    split at hfr
    · simp at hfr
    · have := geneFormatResponseGo_valid_reasons strategy table batchIds 0
        fs convs hall hfr f hf
      rcases this with h1 | h1 | h1 <;> rw [h1] <;> decide

/-- C10 witness: both halves applied at concrete inputs whose runs
produce a "No results found" failure. -/
theorem C10_invalid_prefix_unreachable_witness :
    (∀ f ∈ [(⟨0, "DOID:7402", noResultsReason⟩ : FailedId)],
      f.reason ≠ invalidPrefixReason diseaseChoices)
    ∧ (∀ f ∈ [(⟨0, "ENTREZ:7157", noResultsReason⟩ : FailedId)],
      f.reason ≠ invalidPrefixReason geneChoices) := by
  constructor
  · exact C10_invalid_prefix_unreachable.1 Strategy.MIXTURE c10Resolver
      ["DOID:7402"] 300 _ _ (by decide) (by rfl)
  · exact C10_invalid_prefix_unreachable.2 Strategy.MIXTURE c10GeneTable
      ["ENTREZ:7157"] ["ENTREZ:7157"] _ _ (by decide)
      (fun id hid => hid) (by rfl)

/-! ## Strategy-policy lemmas (per converter) -/

theorem length_filter_le_mrl (c : String) (mrl : List String) :
    (mrl.filter (fun x => matchesChoice c x)).length ≤ mrl.length :=
  List.length_filter_le _ _

theorem disease_difference_head (db : String) (hdb : db ∈ diseaseChoices)
    (hne : db ≠ diseaseDefault) :
    ∃ rest, diseaseChoices.filter (fun x => x ≠ db) =
      diseaseDefault :: rest := by
  fin_cases hdb
  · exact absurd rfl hne
  all_goals exact ⟨_, rfl⟩

theorem diseaseProcessOne_default_multi (strat : Strategy)
    (sr : List (List String)) (i : Nat) (id : String) (db v : String)
    (mrl : List String) (r : Sum FailedId (ConvRec DBVal))
    (hsplit : pySplit id ':' = [db, v]) (hdb : db ∈ diseaseChoices)
    (hne : db ≠ diseaseDefault)
    (hmrl : pyIndex sr i = Except.ok mrl)
    (hlen : (mrl.filter (fun x => matchesChoice diseaseDefault x)).length > 1)
    (h : diseaseProcessOne strat diseaseChoices diseaseDefault sr i id =
      Except.ok r) :
    r = Sum.inl ⟨i, id, multipleResultsReason⟩ := by
  obtain ⟨restc, hrest⟩ := disease_difference_head db hdb hne
  have hmlen : mrl.length > 0 := by
    have := length_filter_le_mrl diseaseDefault mrl
    omega
  simp only [diseaseProcessOne, hsplit, pyUnpack2, bind, Except.bind] at h
  rw [if_pos hdb] at h
  split at h
  · rename_i e he
    rw [hmrl] at he
    simp at he
  · rename_i mrl2 hmrl2
    rw [hmrl] at hmrl2
    injection hmrl2 with hm2
    subst hm2
    split at h
    · omega
    · split at h
      · simp at h
      · split at h
        · rename_i heqloop
          rw [hrest] at heqloop
          have hout := diseaseChoiceLoop_default_head strat diseaseDefault i
            id mrl restc _ _ hlen _ heqloop
          cases h
          cases hout
          rfl
        · simp at h

theorem gene_difference_head (db : String) (hdb : db ∈ geneChoices)
    (hne : db ≠ geneDefault) :
    ∃ rest, geneChoices.filter (fun x => x ≠ db) = geneDefault :: rest := by
  fin_cases hdb
  · exact absurd rfl hne
  all_goals exact ⟨_, rfl⟩

theorem geneColMatched_nil (c : String) :
    geneColMatched [] c = some [] := by
  simp [geneColMatched, flattenDedupAtoms, pySetList]

theorem geneProcessOne_default_multi (strat : Strategy)
    (sr : List GRow) (i : Nat) (id : String) (db v : String)
    (rows : List GRow) (m : List GAtom) (r : Sum FailedId (ConvRec GDictVal))
    (hsplit : pySplit id ':' = [db, v]) (hdb : db ∈ geneChoices)
    (hne : db ≠ geneDefault)
    (hrows : geneSelectRows sr db (if db = "MGI" then id else v) =
      Except.ok rows)
    (hm : geneColMatched rows geneDefault = some m) (hlen : m.length > 1)
    (h : geneProcessOne strat geneChoices geneDefault sr i id =
      Except.ok r) :
    r = Sum.inl ⟨i, id, multipleResultsReason⟩ := by
  obtain ⟨restc, hrest⟩ := gene_difference_head db hdb hne
  have hrows0 : rows.length ≠ 0 := by
    intro h0
    have : rows = [] := List.length_eq_zero.mp h0
    subst this
    rw [geneColMatched_nil] at hm
    cases hm
    simp at hlen
  simp only [geneProcessOne, hsplit, pyUnpack2, bind, Except.bind] at h
  rw [if_pos hdb] at h
  split at h
  · rename_i e he
    rw [hrows] at he
    simp at he
  · rename_i rows2 hrows2
    rw [hrows] at hrows2
    injection hrows2 with hr2
    subst hr2
    split at h
    · rename_i hz
      exact absurd hz hrows0
    · split at h
      · rename_i heqloop
        rw [hrest] at heqloop
        have hout := geneChoiceLoop_default_head strat geneDefault i id rows
          restc _ _ m hm hlen _ heqloop
        cases h
        cases hout
        rfl
      · simp at h

theorem compoundStep_default_multi (r : CompoundResult) (xs : List String)
    (hd : cresGet r compoundDefault = CResVal.rlist xs)
    (hlen : xs.length > 1) :
    compoundStep r =
      Except.ok (Sum.inl ⟨cresIdx r, cresRawId r, multipleResultsReason⟩) := by
  simp [compoundStep, hd, hlen]

theorem exMapM_curieLocal_ok (choice : String) :
    ∀ (l : List String), (∀ x ∈ l, 2 ≤ (pySplit x ':').length) →
      ∃ ys, exMapM (curieLocal choice) l = Except.ok ys ∧
        ys.length = l.length
  | [], _ => ⟨[], rfl, rfl⟩
  | x :: xs, h => by
    have hx := h x (List.mem_cons_self _ _)
    obtain ⟨ys, hys, hlen⟩ := exMapM_curieLocal_ok choice xs
      (fun y hy => h y (List.mem_cons_of_mem _ hy))
    cases hg : (pySplit x ':')[1]? with
    | none =>
      exfalso
      have h2 : ¬ 1 < (pySplit x ':').length := by
        intro hlt
        rw [List.getElem?_eq_getElem hlt] at hg
        cases hg
      omega
    | some v =>
      have hv : curieLocal choice x = Except.ok (choice ++ ":" ++ v) := by
        simp [curieLocal, pyIndex, hg, bind, Except.bind]
      refine ⟨(choice ++ ":" ++ v) :: ys, ?_, by simp [hlen]⟩
      simp [exMapM, bind, Except.bind, hv, hys]

theorem diseaseChoiceLoop_unique_break (dflt : String) (i : Nat)
    (id : String) (mrl : List String)
    (hcol : ∀ x ∈ mrl, 2 ≤ (pySplit x ':').length) :
    ∀ (cs : List String) (dbs : List (String × DBVal)) (b : Bool)
      (c : String), c ∈ cs →
      (mrl.filter (fun x => matchesChoice c x)).length > 1 →
      ∃ f, diseaseChoiceLoop Strategy.UNIQUE dflt i id mrl cs dbs b =
          Except.ok (some f, [], true) ∧
        (f.reason = multipleResultsReason ∨ f.reason = uniqueStrategyReason)
  | [], dbs, b, c, hc, hlen => by simp at hc
  | choice :: rest, dbs, b, c, hc, hlen => by
    simp only [diseaseChoiceLoop]
    by_cases hm : (mrl.filter (fun x => matchesChoice choice x)).length > 0
    · rw [if_pos hm]
      obtain ⟨ys, hys, hyslen⟩ := exMapM_curieLocal_ok choice
        (mrl.filter (fun x => matchesChoice choice x))
        (fun x hx => hcol x (List.mem_of_mem_filter hx))
      rw [hys]
      simp only [bind, Except.bind]
      by_cases h1 : choice = dflt ∧ ys.length > 1
      · rw [if_pos h1]
        exact ⟨⟨i, id, multipleResultsReason⟩, rfl, Or.inl rfl⟩
      · rw [if_neg h1]
        simp only [true_and]
        by_cases h2 : ys.length > 1
        · rw [if_pos h2]
          exact ⟨⟨i, id, uniqueStrategyReason⟩, rfl, Or.inr rfl⟩
        · rw [if_neg h2]
          rcases List.mem_cons.mp hc with rfl | hc2
          · exfalso
            rw [hyslen] at h2
            omega
          · exact diseaseChoiceLoop_unique_break dflt i id mrl hcol rest _ _
              c hc2 hlen
    · rw [if_neg hm]
      rcases List.mem_cons.mp hc with rfl | hc2
      · exfalso
        omega
      · exact diseaseChoiceLoop_unique_break dflt i id mrl hcol rest _ _
          c hc2 hlen

theorem geneChoiceLoop_unique_break (dflt : String) (i : Nat) (id : String)
    (rows : List GRow) :
    ∀ (cs : List String) (dbs : List (String × GDictVal)) (b : Bool)
      (c : String) (m : List GAtom), c ∈ cs →
      geneColMatched rows c = some m → m.length > 1 →
      ∃ f, geneChoiceLoop Strategy.UNIQUE dflt i id rows cs dbs b =
          (some f, [], true) ∧
        (f.reason = multipleResultsReason ∨ f.reason = uniqueStrategyReason)
  | [], dbs, b, c, m, hc, hm, hlen => by simp at hc
  | choice :: rest, dbs, b, c, m, hc, hm, hlen => by
    simp only [geneChoiceLoop]
    rcases hg : geneColMatched rows choice with _ | ⟨_ | ⟨a, as⟩⟩
    · simp only [hg]
      rcases List.mem_cons.mp hc with rfl | hc2
      · rw [hm] at hg
        cases hg
      · exact geneChoiceLoop_unique_break dflt i id rows rest _ _ c m hc2
          hm hlen
    · simp only [hg]
      rcases List.mem_cons.mp hc with rfl | hc2
      · rw [hm] at hg
        cases hg
        simp at hlen
      · exact geneChoiceLoop_unique_break dflt i id rows rest _ _ c m hc2
          hm hlen
    · simp only [hg]
      by_cases h1 : choice = dflt ∧ (a :: as).length > 1
      · rw [if_pos h1]
        exact ⟨⟨i, id, multipleResultsReason⟩, rfl, Or.inl rfl⟩
      · rw [if_neg h1]
        simp only [true_and]
        by_cases h2 : (a :: as).length > 1
        · rw [if_pos h2]
          exact ⟨⟨i, id, uniqueStrategyReason⟩, rfl, Or.inr rfl⟩
        · rw [if_neg h2]
          rcases List.mem_cons.mp hc with rfl | hc2
          · exfalso
            rw [hm] at hg
            injection hg with hg2
            subst hg2
            omega
          · exact geneChoiceLoop_unique_break dflt i id rows rest _ _ c m
              hc2 hm hlen

/-- C4 (counterexample): a real run of the one constructible converter
(compound) under strategy UNIQUE, on an identifier whose `UMLS`
candidate set has two members while the default `DrugBank` value is a
singleton: instead of the claimed rejection with a `FailedId`, the run
raises `AttributeError` at the undefined `self.add_converted_id(result)`
— `convert` never consults the strategy, so no UNIQUE ambiguity check
happens at all. -/
theorem C4_compound_skips_unique_check :
    compoundConvert Strategy.UNIQUE c4Resolver ["MESH:D004249"] 300 =
      Except.error addConvertedIdError := by
  rfl

/-- C4 (amended): under UNIQUE the disease and gene converters do reject
an identifier whenever any candidate database in their `difference` list
yields more than one candidate (the break fires with the
multiple-results or unique-strategy reason before the crash-prone
emission call is reached); the compound converter does not implement the
UNIQUE check at all — every `FailedId` it can produce carries "Multiple
results found" (never the unique-strategy reason), and a result that
passes the default-multiplicity test raises `AttributeError` at
`self.add_converted_id` instead of being vetted against the strategy. -/
theorem C4_unique_policy_amended :
    (∀ (sr : List (List String)) (i : Nat) (id db v c : String)
      (mrl : List String),
      pySplit id ':' = [db, v] → db ∈ diseaseChoices →
      pyIndex sr i = Except.ok mrl →
      (∀ x ∈ mrl, 2 ≤ (pySplit x ':').length) →
      c ∈ diseaseChoices → c ≠ db →
      (mrl.filter (fun x => matchesChoice c x)).length > 1 →
      ∃ f, diseaseProcessOne Strategy.UNIQUE diseaseChoices diseaseDefault
          sr i id = Except.ok (Sum.inl f) ∧
        (f.reason = multipleResultsReason ∨ f.reason = uniqueStrategyReason))
    ∧ (∀ (sr : List GRow) (i : Nat) (id db v c : String)
      (rows : List GRow) (m : List GAtom),
      pySplit id ':' = [db, v] → db ∈ geneChoices →
      geneSelectRows sr db (if db = "MGI" then id else v) = Except.ok rows →
      c ∈ geneChoices → c ≠ db →
      geneColMatched rows c = some m → m.length > 1 →
      ∃ f, geneProcessOne Strategy.UNIQUE geneChoices geneDefault sr i id =
          Except.ok (Sum.inl f) ∧
        (f.reason = multipleResultsReason ∨ f.reason = uniqueStrategyReason))
    ∧ (∀ (rs : List CompoundResult) (fs : List FailedId)
      (cs : List (ConvRec CResVal)),
      compoundStepAll rs = Except.ok (fs, cs) →
      ∀ f ∈ fs, f.reason ≠ uniqueStrategyReason)
    ∧ (∀ (r : CompoundResult),
      (∀ xs, cresGet r compoundDefault = CResVal.rlist xs →
        ¬ xs.length > 1) →
      compoundStep r = Except.error addConvertedIdError) := by
  refine ⟨?_, ?_, ?_, ?_⟩
  · intro sr i id db v c mrl h1 h2 h3 hcol h4 h5 h6
    have hmlen : ¬ mrl.length = 0 := by
      have := length_filter_le_mrl c mrl
      omega
    have hcmem : c ∈ diseaseChoices.filter (fun x => x ≠ db) :=
      List.mem_filter.mpr ⟨h4, by simpa using h5⟩
    obtain ⟨f, hloop, hreason⟩ := diseaseChoiceLoop_unique_break
      diseaseDefault i id mrl hcol
      (diseaseChoices.filter (fun x => x ≠ db)) [(db, DBVal.vstr id)] false
      c hcmem h6
    refine ⟨f, ?_, hreason⟩
    simp only [diseaseProcessOne, h1, pyUnpack2, bind, Except.bind]
    rw [if_pos h2]
    simp only [h3]
    rw [if_neg hmlen, hloop]
  · intro sr i id db v c rows m h1 h2 h3 h4 h5 hm h6
    have hrows0 : ¬ rows.length = 0 := by
      intro h0
      have h9 : rows = [] := List.length_eq_zero.mp h0
      subst h9
      rw [geneColMatched_nil] at hm
      cases hm
      simp at h6
    have hcmem : c ∈ geneChoices.filter (fun x => x ≠ db) :=
      List.mem_filter.mpr ⟨h4, by simpa using h5⟩
    obtain ⟨f, hloop, hreason⟩ := geneChoiceLoop_unique_break geneDefault i
      id rows (geneChoices.filter (fun x => x ≠ db))
      [(db, GDictVal.gvatom (GAtom.astr id))] false c m hcmem hm h6
    refine ⟨f, ?_, hreason⟩
    simp only [geneProcessOne, h1, pyUnpack2, bind, Except.bind]
    rw [if_pos h2]
    simp only [h3]
    rw [if_neg hrows0, hloop]
  · intro rs fs cs hall f hf
    obtain ⟨-, hmem⟩ := compoundStepAll_mem rs fs cs hall
    obtain ⟨j, hj, hstep⟩ := hmem f hf
    have hinl := compoundStep_ok_inl (rs.get ⟨j, hj⟩) _ hstep
    injection hinl with hf2
    subst hf2
    show multipleResultsReason ≠ uniqueStrategyReason
    decide
  · intro r hne
    cases hget : cresGet r compoundDefault with
    | rlist xs =>
      have h9 := hne xs hget
      simp [compoundStep, hget, h9]
    | rnone => simp [compoundStep, hget]
    | rstr s => simp [compoundStep, hget]
    | rint n => simp [compoundStep, hget]
    | rdict => simp [compoundStep, hget]

/-- C4 witness: the amended theorem applied at concrete inputs — the
disease and gene converters reject an ambiguous non-default candidate
set under UNIQUE; the compound converter produces only multiple-results
failures and crashes at the emission call on a singleton default. -/
theorem C4_unique_policy_amended_witness :
    (∃ f, diseaseProcessOne Strategy.UNIQUE diseaseChoices diseaseDefault
        [["MESH:D1", "MESH:D2", "MONDO:0000001"]] 0 "DOID:1" =
        Except.ok (Sum.inl f) ∧
      (f.reason = multipleResultsReason ∨ f.reason = uniqueStrategyReason))
    ∧ (∃ f, geneProcessOne Strategy.UNIQUE geneChoices geneDefault
        [[("SYMBOL", GCell.cell (GAtom.astr "TP53")),
          ("ENTREZ", GCell.cell (GAtom.aint 7157)),
          ("ENSEMBL", GCell.clist [GAtom.astr "E1", GAtom.astr "E2"])]]
        0 "SYMBOL:TP53" = Except.ok (Sum.inl f) ∧
      (f.reason = multipleResultsReason ∨ f.reason = uniqueStrategyReason))
    ∧ (∀ f ∈ [(⟨0, "MESH:D1", multipleResultsReason⟩ : FailedId)],
      f.reason ≠ uniqueStrategyReason)
    ∧ compoundStep (c4Resolver "MESH" ["MESH:D004249"]).head! =
      Except.error addConvertedIdError := by
  refine ⟨?_, ?_, ?_, ?_⟩
  · exact C4_unique_policy_amended.1
      [["MESH:D1", "MESH:D2", "MONDO:0000001"]] 0 "DOID:1" "DOID" "1"
      "MESH" ["MESH:D1", "MESH:D2", "MONDO:0000001"] (by rfl) (by decide)
      (by rfl) (by decide) (by decide) (by decide) (by decide)
  · exact C4_unique_policy_amended.2.1
      [[("SYMBOL", GCell.cell (GAtom.astr "TP53")),
        ("ENTREZ", GCell.cell (GAtom.aint 7157)),
        ("ENSEMBL", GCell.clist [GAtom.astr "E1", GAtom.astr "E2"])]]
      0 "SYMBOL:TP53" "SYMBOL" "TP53" "ENSEMBL"
      [[("SYMBOL", GCell.cell (GAtom.astr "TP53")),
        ("ENTREZ", GCell.cell (GAtom.aint 7157)),
        ("ENSEMBL", GCell.clist [GAtom.astr "E1", GAtom.astr "E2"])]]
      [GAtom.astr "E1", GAtom.astr "E2"] (by rfl) (by decide) (by rfl)
      (by decide) (by decide) (by rfl) (by decide)
  · exact C4_unique_policy_amended.2.2.1
      [[("DrugBank", CResVal.rlist ["DrugBank:DB1", "DrugBank:DB2"]),
        ("idx", CResVal.rint 0), ("raw_id", CResVal.rstr "MESH:D1")]]
      [⟨0, "MESH:D1", multipleResultsReason⟩] [] (by rfl)
  · exact C4_unique_policy_amended.2.2.2 _
      (by intro xs hxs; cases hxs; decide)

/-- C5: in every modelled converter, an identifier whose default-database
candidate set has more than one member is recorded as a `FailedId` with
reason "Multiple results found" regardless of the strategy, and no
`ConvertedId` is emitted for it (the partially built dict is discarded):
the default database heads the choice order in the disease and gene
converters, so its check fires before any other branch, and the compound
converter tests exactly this condition. -/
theorem C5_default_multiplicity_always_fails :
    (∀ (strat : Strategy) (sr : List (List String)) (i : Nat)
      (id db v : String) (mrl : List String)
      (r : Sum FailedId (ConvRec DBVal)),
      pySplit id ':' = [db, v] → db ∈ diseaseChoices →
      db ≠ diseaseDefault →
      pyIndex sr i = Except.ok mrl →
      (mrl.filter (fun x => matchesChoice diseaseDefault x)).length > 1 →
      diseaseProcessOne strat diseaseChoices diseaseDefault sr i id =
        Except.ok r →
      r = Sum.inl ⟨i, id, multipleResultsReason⟩)
    ∧ (∀ (strat : Strategy) (sr : List GRow) (i : Nat) (id db v : String)
      (rows : List GRow) (m : List GAtom)
      (r : Sum FailedId (ConvRec GDictVal)),
      pySplit id ':' = [db, v] → db ∈ geneChoices → db ≠ geneDefault →
      geneSelectRows sr db (if db = "MGI" then id else v) = Except.ok rows →
      geneColMatched rows geneDefault = some m → m.length > 1 →
      geneProcessOne strat geneChoices geneDefault sr i id = Except.ok r →
      r = Sum.inl ⟨i, id, multipleResultsReason⟩)
    ∧ (∀ (r : CompoundResult) (xs : List String),
      cresGet r compoundDefault = CResVal.rlist xs → xs.length > 1 →
      compoundStep r =
        Except.ok (Sum.inl ⟨cresIdx r, cresRawId r, multipleResultsReason⟩)) := by
  refine ⟨?_, ?_, ?_⟩
  · intro strat sr i id db v mrl r h1 h2 h3 h4 h5 h6
    exact diseaseProcessOne_default_multi strat sr i id db v mrl r h1 h2 h3
      h4 h5 h6
  · intro strat sr i id db v rows m r h1 h2 h3 h4 h5 h6 h7
    exact geneProcessOne_default_multi strat sr i id db v rows m r h1 h2 h3
      h4 h5 h6 h7
  · intro r xs h1 h2
    exact compoundStep_default_multi r xs h1 h2

/-- C5 witness: the theorem applied at concrete inputs for each of the
three converters (disease under MIXTURE, gene under MIXTURE, compound). -/
theorem C5_default_multiplicity_always_fails_witness :
    ((Sum.inl ⟨0, "DOID:1", multipleResultsReason⟩ :
      Sum FailedId (ConvRec DBVal)) =
      Sum.inl ⟨0, "DOID:1", multipleResultsReason⟩)
    ∧ ((Sum.inl ⟨0, "SYMBOL:TP53", multipleResultsReason⟩ :
      Sum FailedId (ConvRec GDictVal)) =
      Sum.inl ⟨0, "SYMBOL:TP53", multipleResultsReason⟩)
    ∧ compoundStep [("DrugBank",
        CResVal.rlist ["DrugBank:DB1", "DrugBank:DB2"]),
        ("idx", CResVal.rint 3), ("raw_id", CResVal.rstr "MESH:D1")] =
      Except.ok (Sum.inl ⟨3, "MESH:D1", multipleResultsReason⟩) := by
  refine ⟨?_, ?_, ?_⟩
  · exact C5_default_multiplicity_always_fails.1 Strategy.MIXTURE
      [["MONDO:0000001", "MONDO:0000002"]] 0 "DOID:1" "DOID" "1"
      ["MONDO:0000001", "MONDO:0000002"] _ (by rfl) (by decide) (by decide)
      (by rfl) (by decide) (by rfl)
  · exact C5_default_multiplicity_always_fails.2.1 Strategy.MIXTURE
      [[("SYMBOL", GCell.cell (GAtom.astr "TP53")),
        ("ENTREZ", GCell.clist [GAtom.aint 7157, GAtom.aint 1234])]]
      0 "SYMBOL:TP53" "SYMBOL" "TP53"
      [[("SYMBOL", GCell.cell (GAtom.astr "TP53")),
        ("ENTREZ", GCell.clist [GAtom.aint 7157, GAtom.aint 1234])]]
      [GAtom.aint 7157, GAtom.aint 1234] _ (by rfl) (by decide) (by decide)
      (by rfl) (by rfl) (by decide) (by rfl)
  · exact C5_default_multiplicity_always_fails.2.2
      [("DrugBank", CResVal.rlist ["DrugBank:DB1", "DrugBank:DB2"]),
       ("idx", CResVal.rint 3), ("raw_id", CResVal.rstr "MESH:D1")]
      ["DrugBank:DB1", "DrugBank:DB2"] (by rfl) (by decide)

/-! ## Dedup lemmas and theorems -/

/-- C2 (counterexample): an unofficial row whose id occurs in the `xrefs`
of *two* official rows (an ambiguous first rule) disappears from the
dedup output entirely: it is neither merged nor kept in the remaining
bucket, refuting "the unofficial row is kept unchanged in the output via
the remaining bucket; no unofficial row is silently dropped". -/
theorem C2_ambiguous_row_dropped :
    dedup [Row.mk "MONDO:1" "a" "Disease" (some "DOID:9") none,
           Row.mk "MONDO:2" "b" "Disease" (some "DOID:9") none,
           Row.mk "DOID:9" "u" "Disease" none none] =
      [Row.mk "MONDO:1" "a" "Disease" (some "DOID:9") none,
       Row.mk "MONDO:2" "b" "Disease" (some "DOID:9") none]
    ∧ Row.mk "DOID:9" "u" "Disease" none none ∉
      dedup [Row.mk "MONDO:1" "a" "Disease" (some "DOID:9") none,
             Row.mk "MONDO:2" "b" "Disease" (some "DOID:9") none,
             Row.mk "DOID:9" "u" "Disease" none none] := by
  exact ⟨rfl, by decide⟩

/-- C2 (amended): for every unofficial row, if no match rule finds an
official candidate the row is kept unchanged via the remaining bucket;
but if the first rule that finds candidates yields more than one official
row, the row is silently dropped — no merge is performed and the row is
not added to the remaining bucket (the iteration leaves the state
unchanged). -/
theorem C2_no_match_kept_ambiguous_dropped (official remaining : List Row)
    (r : Row) :
    ((official.filter (xrefPred r)).length = 0 →
      (official.filter (namePred r)).length = 0 →
      (official.filter (synonymPred r)).length = 0 →
      dedupStep official remaining r = (official, remaining ++ [r]))
    ∧ ((official.filter (xrefPred r)).length > 1 →
      dedupStep official remaining r = (official, remaining))
    ∧ ((official.filter (xrefPred r)).length = 0 →
      (official.filter (namePred r)).length > 1 →
      dedupStep official remaining r = (official, remaining))
    ∧ ((official.filter (xrefPred r)).length = 0 →
      (official.filter (namePred r)).length = 0 →
      (official.filter (synonymPred r)).length > 1 →
      dedupStep official remaining r = (official, remaining)) := by
  refine ⟨?_, ?_, ?_, ?_⟩
  · intro h1 h2 h3
    simp only [dedupStep]
    rw [if_neg (by omega), if_neg (by omega), if_neg (by omega)]
  · intro h1
    simp only [dedupStep]
    rw [if_pos (by omega)]
    cases hmx : official.filter (xrefPred r) with
    | nil => rw [hmx] at h1
    | cons a t =>
      cases t with
      | nil => rw [hmx] at h1; simp at h1
      | cons b t2 => rfl
  · intro h1 h2
    simp only [dedupStep]
    rw [if_neg (by omega), if_pos (by omega)]
    cases hmn : official.filter (namePred r) with
    | nil => rw [hmn] at h2
    | cons a t =>
      cases t with
      | nil => rw [hmn] at h2; simp at h2
      | cons b t2 => rfl
  · intro h1 h2 h3
    simp only [dedupStep]
    rw [if_neg (by omega), if_neg (by omega), if_pos (by omega)]
    cases hms : official.filter (synonymPred r) with
    | nil => rw [hms] at h3
    | cons a t =>
      cases t with
      | nil => rw [hms] at h3; simp at h3
      | cons b t2 => rfl

/-- C2 witness: the amended theorem at concrete rows — a no-match row is
kept in remaining, an ambiguous one leaves the state unchanged. -/
theorem C2_no_match_kept_ambiguous_dropped_witness :
    dedupStep [] [] (Row.mk "DOID:9" "u" "Disease" none none) =
      ([], [] ++ [Row.mk "DOID:9" "u" "Disease" none none])
    ∧ dedupStep [Row.mk "MONDO:1" "a" "Disease" (some "DOID:9") none,
        Row.mk "MONDO:2" "b" "Disease" (some "DOID:9") none] []
        (Row.mk "DOID:9" "u" "Disease" none none) =
      ([Row.mk "MONDO:1" "a" "Disease" (some "DOID:9") none,
        Row.mk "MONDO:2" "b" "Disease" (some "DOID:9") none], []) := by
  constructor
  · exact (C2_no_match_kept_ambiguous_dropped [] []
      (Row.mk "DOID:9" "u" "Disease" none none)).1 (by decide) (by decide)
      (by decide)
  · exact (C2_no_match_kept_ambiguous_dropped _ _
      (Row.mk "DOID:9" "u" "Disease" none none)).2.1 (by decide)

/-- C7 (counterexample): an unofficial row whose name occurs in official
row A's `synonyms` and in official row B's `name` is merged into **B**
(B's xrefs gain the unofficial id, A is untouched): the code tries
id-in-xrefs, then name-in-name, then name-in-synonyms, refuting the
claimed order "(i) xrefs, (ii) synonyms, (iii) name" under which A would
have been the match. -/
theorem C7_name_rule_beats_synonym_rule :
    dedupStep [Row.mk "MONDO:1" "alpha" "Disease" none (some "shared"),
               Row.mk "MONDO:2" "shared" "Disease" none (some "other")] []
      (Row.mk "DOID:9" "shared" "Disease" none none) =
      ([Row.mk "MONDO:1" "alpha" "Disease" none (some "shared"),
        Row.mk "MONDO:2" "shared" "Disease" (some "DOID:9") (some "other")],
       []) := by
  rfl

/-- C7 (amended): the match rules are tried in the strict priority order
(i) the unofficial id in an official row's `xrefs`, (ii) the unofficial
name in an official row's `name`, (iii) the unofficial name in an
official row's `synonyms` — stopping at the first rule that yields a
candidate (a later rule is consulted only when every earlier rule found
none). -/
theorem C7_priority_xrefs_name_synonyms (official remaining : List Row)
    (r : Row) :
    (∀ m, official.filter (xrefPred r) = [m] →
      dedupStep official remaining r =
        (updateXrefsWhere official (xrefPred r) (mergeIds m r), remaining))
    ∧ (∀ m, official.filter (xrefPred r) = [] →
      official.filter (namePred r) = [m] →
      dedupStep official remaining r =
        (updateXrefsWhere official (namePred r) (mergeIds m r), remaining))
    ∧ (∀ m, official.filter (xrefPred r) = [] →
      official.filter (namePred r) = [] →
      official.filter (synonymPred r) = [m] →
      dedupStep official remaining r =
        (updateXrefsWhere official (synonymPred r) (mergeIds m r),
         remaining)) := by
  refine ⟨?_, ?_, ?_⟩
  · intro m hm
    simp only [dedupStep]
    rw [if_pos (by rw [hm]; simp), hm]
  · intro m hx hm
    simp only [dedupStep]
    rw [if_neg (by rw [hx]; simp), if_pos (by rw [hm]; simp), hm]
  · intro m hx hn hm
    simp only [dedupStep]
    rw [if_neg (by rw [hx]; simp), if_neg (by rw [hn]; simp),
      if_pos (by rw [hm]; simp), hm]

/-- C7 witness: the amended theorem's second rule (name-in-name) applied
at the counterexample rows. -/
theorem C7_priority_xrefs_name_synonyms_witness :
    dedupStep [Row.mk "MONDO:1" "alpha" "Disease" none (some "shared"),
               Row.mk "MONDO:2" "shared" "Disease" none (some "other")] []
      (Row.mk "DOID:9" "shared" "Disease" none none) =
      (updateXrefsWhere
        [Row.mk "MONDO:1" "alpha" "Disease" none (some "shared"),
         Row.mk "MONDO:2" "shared" "Disease" none (some "other")]
        (namePred (Row.mk "DOID:9" "shared" "Disease" none none))
        (mergeIds (Row.mk "MONDO:2" "shared" "Disease" none (some "other"))
          (Row.mk "DOID:9" "shared" "Disease" none none)), []) := by
  exact (C7_priority_xrefs_name_synonyms _ []
    (Row.mk "DOID:9" "shared" "Disease" none none)).2.1
    (Row.mk "MONDO:2" "shared" "Disease" none (some "other"))
    (by decide) (by decide)

theorem updateXrefsWhere_labels (official : List Row) (p : Row → Bool)
    (v : String) (lab : String) (h : ∀ o ∈ official, o.label = lab) :
    ∀ o ∈ updateXrefsWhere official p v, o.label = lab := by
  intro o ho
  obtain ⟨o0, ho0, heq⟩ := List.mem_map.mp ho
  subst heq
  by_cases hp : p o0
  · simp only [updateXrefsWhere, hp, if_true]
    exact h o0 ho0
  · simp only [updateXrefsWhere, hp, if_false]
    exact h o0 ho0

theorem dedupStep_shape (official remaining : List Row) (r : Row) :
    dedupStep official remaining r = (official, remaining)
    ∨ dedupStep official remaining r = (official, remaining ++ [r])
    ∨ ∃ (p : Row → Bool) (m : Row),
        dedupStep official remaining r =
          (updateXrefsWhere official p (mergeIds m r), remaining) := by
  simp only [dedupStep]
  split
  · split
    · right; right; exact ⟨_, _, rfl⟩
    · left; rfl
  · split
    · split
      · right; right; exact ⟨_, _, rfl⟩
      · left; rfl
    · split
      · split
        · right; right; exact ⟨_, _, rfl⟩
        · left; rfl
      · right; left; rfl

theorem dedupStep_labels (official remaining : List Row) (r : Row)
    (lab : String) (hO : ∀ o ∈ official, o.label = lab)
    (hR : ∀ o ∈ remaining, o.label = lab) (hr : r.label = lab) :
    (∀ o ∈ (dedupStep official remaining r).1, o.label = lab)
    ∧ (∀ o ∈ (dedupStep official remaining r).2, o.label = lab) := by
  rcases dedupStep_shape official remaining r with h | h | ⟨p, m, h⟩
  · rw [h]; exact ⟨hO, hR⟩
  · rw [h]
    refine ⟨hO, ?_⟩
    intro o ho
    rcases List.mem_append.mp ho with h2 | h2
    · exact hR o h2
    · simp at h2; subst h2; exact hr
  · rw [h]
    exact ⟨updateXrefsWhere_labels official p _ lab hO, hR⟩

theorem processUnofficial_labels (lab : String) :
    ∀ (unoff official remaining : List Row),
      (∀ o ∈ official, o.label = lab) → (∀ o ∈ remaining, o.label = lab) →
      (∀ o ∈ unoff, o.label = lab) →
      (∀ o ∈ (processUnofficial official remaining unoff).1, o.label = lab)
      ∧ (∀ o ∈ (processUnofficial official remaining unoff).2, o.label = lab)
  | [], official, remaining, hO, hR, _ => by
    simp only [processUnofficial]
    exact ⟨hO, hR⟩
  | r :: rest, official, remaining, hO, hR, hU => by
    have hs := dedupStep_labels official remaining r lab hO hR
      (hU r (List.mem_cons_self _ _))
    simp only [processUnofficial]
    rcases hd : dedupStep official remaining r with ⟨o2, r2⟩
    rw [hd] at hs
    exact processUnofficial_labels lab rest o2 r2 hs.1 hs.2
      (fun o ho => hU o (List.mem_cons_of_mem _ ho))

theorem dedupOneLabel_labels (rows : List Row) (l2 : String) :
    ∀ out ∈ dedupOneLabel rows l2, out.label = l2 := by
  intro out hout
  have hsub : ∀ o ∈ rows.filter (fun r => r.label = l2), o.label = l2 := by
    intro o ho
    simpa using (List.mem_filter.mp ho).2
  simp only [dedupOneLabel] at hout
  split at hout
  · exact hsub out hout
  · rename_i d hd
    split at hout
    · simp at hout
    · have hoff : ∀ o ∈ (rows.filter (fun r => r.label = l2)).filter
          (fun r => r.id ∉
            ((rows.filter (fun r => r.label = l2)).map Row.id).filter
              (fun x => ! startsWithLower x d)), o.label = l2 :=
        fun o ho => hsub o (List.mem_of_mem_filter ho)
      have hunoff : ∀ o ∈ (rows.filter (fun r => r.label = l2)).filter
          (fun r => r.id ∈
            ((rows.filter (fun r => r.label = l2)).map Row.id).filter
              (fun x => ! startsWithLower x d)), o.label = l2 :=
        fun o ho => hsub o (List.mem_of_mem_filter ho)
      have hPU := processUnofficial_labels l2
        ((rows.filter (fun r => r.label = l2)).filter
          (fun r => r.id ∈
            ((rows.filter (fun r => r.label = l2)).map Row.id).filter
              (fun x => ! startsWithLower x d)))
        ((rows.filter (fun r => r.label = l2)).filter
          (fun r => r.id ∉
            ((rows.filter (fun r => r.label = l2)).map Row.id).filter
              (fun x => ! startsWithLower x d)))
        [] hoff (by simp) hunoff
      rcases List.mem_append.mp hout with h1 | h1
      · rcases List.mem_append.mp h1 with h2 | h2
        · exact hsub out (List.mem_of_mem_filter h2)
        · exact hPU.2 out h2
      · exact hPU.1 out h1

theorem dedupLabels_mem (rows : List Row) :
    ∀ (ls : List String) (out : Row), out ∈ dedupLabels rows ls →
      ∃ l2 ∈ ls, out ∈ dedupOneLabel rows l2
  | [], out, h => by simp [dedupLabels] at h
  | l2 :: ls, out, h => by
    simp only [dedupLabels] at h
    rcases List.mem_append.mp h with h2 | h2
    · exact ⟨l2, List.mem_cons_self _ _, h2⟩
    · obtain ⟨l3, hl3, hm⟩ := dedupLabels_mem rows ls out h2
      exact ⟨l3, List.mem_cons_of_mem _ hl3, hm⟩

theorem dropDupKeepLast_subset :
    ∀ (l : List Row) (r : Row), r ∈ dropDupKeepLast l → r ∈ l
  | [], r, h => by simp [dropDupKeepLast] at h
  | x :: rest, r, h => by
    simp only [dropDupKeepLast] at h
    split at h
    · exact List.mem_cons_of_mem _ (dropDupKeepLast_subset rest r h)
    · rcases List.mem_cons.mp h with rfl | h2
      · exact List.mem_cons_self _ _
      · exact List.mem_cons_of_mem _ (dropDupKeepLast_subset rest r h2)

/-- C9: when a label value has a configured ontology type (its lowercased
form is a key of `ONTOLOGY_TYPE_DICT`) and its group holds exactly one
row, `dedup` skips the group with `continue` before anything is carried
into the final dataframe, so that single row is omitted from the output
entirely. -/
theorem C9_singleton_known_label_dropped (rows : List Row) (l d : String)
    (h1 : ontologyTypeDict.lookup (pyLowerStr l) = some d)
    (h2 : (rows.filter (fun r => r.label = l)).length = 1) :
    ∀ r ∈ rows, r.label = l → r ∉ dedup rows := by
  intro r _ hrl hin
  have hskip : dedupOneLabel rows l = [] := by
    simp [dedupOneLabel, h1, h2]
  have h3 := dropDupKeepLast_subset _ r hin
  obtain ⟨l2, _, hm⟩ := dedupLabels_mem rows _ r h3
  have hl2 := dedupOneLabel_labels rows l2 r hm
  by_cases he : l2 = l
  · subst he
    rw [hskip] at hm
    simp at hm
  · exact he (by rw [← hl2, hrl])

/-- C9 witness: a one-row "Disease" table (the disease type is
configured) produces an output not containing that row. -/
theorem C9_singleton_known_label_dropped_witness :
    Row.mk "MONDO:0005233" "n" "Disease" none none ∉
      dedup [Row.mk "MONDO:0005233" "n" "Disease" none none] := by
  exact C9_singleton_known_label_dropped
    [Row.mk "MONDO:0005233" "n" "Disease" none none] "Disease" "MONDO"
    (by decide) (by decide) _ (List.mem_cons_self _ _) (by decide)

theorem DObj.hasKey_false_of_not_mem :
    ∀ (o : DObj) (k : String), k ∉ DObj.keys o → DObj.hasKey o k = false
  | DObj.nil, _, _ => rfl
  | DObj.cons k0 v rest, k, h => by
    simp only [DObj.keys, List.mem_cons, not_or] at h
    simp only [DObj.hasKey]
    rw [DObj.hasKey_false_of_not_mem rest k h.2]
    simp only [Bool.or_false, decide_eq_false_iff_not]
    exact fun hh => h.1 hh.symm

theorem DObj.eraseKeys_id :
    ∀ (o : DObj) (ks : List String),
      (∀ k ∈ DObj.keys o, ks.contains k = false) → DObj.eraseKeys o ks = o
  | DObj.nil, _, _ => rfl
  | DObj.cons k0 v rest, ks, h => by
    have h0 : ks.contains k0 = false := h k0 (by simp [DObj.keys])
    simp only [DObj.eraseKeys]
    rw [if_neg (by rw [h0]; exact Bool.false_ne_true)]
    rw [DObj.eraseKeys_id rest ks (fun k hk => h k (by simp [DObj.keys, hk]))]

mutual
theorem decode_encode_val :
    ∀ (v : DVal), safeVal v = true → decodeVal (encodeVal v) = Except.ok v
  | DVal.pynone, _ => rfl
  | DVal.pystr s, _ => rfl
  | DVal.pyint n, _ => rfl
  | DVal.pylist xs, h => by
    have h2 : safeList xs = true := by simpa [safeVal] using h
    simp only [encodeVal, decodeVal]
    rw [decode_encode_list xs h2]
    rfl
  | DVal.pydict kvs, h => by
    simp only [safeVal, Bool.and_eq_true, Bool.not_eq_true'] at h
    obtain ⟨⟨⟨h1, h2⟩, h3⟩, h4⟩ := h
    simp only [encodeVal, decodeVal]
    rw [decode_encode_obj kvs h1]
    simp only [bind, Except.bind]
    simp [objectHook, h2, h3, h4]
  | DVal.pyConvertedId i r m extras, h => by
    simp only [safeVal, Bool.and_eq_true] at h
    obtain ⟨⟨⟨⟨hi, hr⟩, hm⟩, hx⟩, hk⟩ := h
    have hext : ∀ k ∈ DObj.keys extras,
        convertedIdKeys.contains k = false ∧ snapshotKeys.contains k = false := by
      intro k hkm
      have h5 := List.all_eq_true.mp hk k hkm
      simp only [Bool.and_eq_true, Bool.not_eq_true'] at h5
      exact h5
    have hnm : ∀ k, snapshotKeys.contains k = true → DObj.hasKey extras k = false := by
      intro k hkc
      refine DObj.hasKey_false_of_not_mem extras k ?_
      intro hmem
      have h5 := (hext k hmem).2
      rw [h5] at hkc
      simp at hkc
    have hnc : ∀ k, convertedIdKeys.contains k = true → DObj.hasKey extras k = false := by
      intro k hkc
      refine DObj.hasKey_false_of_not_mem extras k ?_
      intro hmem
      have h5 := (hext k hmem).1
      rw [h5] at hkc
      simp at hkc
    have e1 := hnm "conversion_result" (by decide)
    have e2 := hnm "formatted_data" (by decide)
    have e3 := hnm "failed_formatted_data" (by decide)
    have e4 := hnm "filepath" (by decide)
    have e5 := hnm "data" (by decide)
    have her : DObj.eraseKeys extras ["idx", "raw_id", "metadata"] = extras :=
      DObj.eraseKeys_id extras convertedIdKeys (fun k hkm => (hext k hkm).1)
    simp only [encodeVal, decodeVal, decodeObj]
    rw [decode_encode_val i hi, decode_encode_val r hr, decode_encode_val m hm,
      decode_encode_obj extras hx]
    simp only [bind, Except.bind]
    simp [objectHook, snapshotKeys, convertedIdKeys, failedIdKeys,
      DObj.hasAll, DObj.hasKey, pyGetKey, DObj.lookup, DObj.eraseKeys,
      List.contains, List.elem, e1, e2, e3, e4, e5, her, bind, Except.bind]
  | DVal.pyFailedId i d rsn, h => by
    simp only [safeVal, Bool.and_eq_true] at h
    obtain ⟨⟨hi, hd2⟩, hr⟩ := h
    simp only [encodeVal, decodeVal, decodeObj]
    rw [decode_encode_val i hi, decode_encode_val d hd2, decode_encode_val rsn hr]
    simp only [bind, Except.bind]
    simp [objectHook, pyGetKey, DObj.lookup, DObj.hasAll, DObj.hasKey,
      snapshotKeys, convertedIdKeys, failedIdKeys, List.contains, List.elem,
      bind, Except.bind]
  | DVal.pyConversionResult a b c d2 e f g, h => by simp [safeVal] at h
  | DVal.pyDataFrame kvs, h => by simp [safeVal] at h
theorem decode_encode_list :
    ∀ (xs : DList), safeList xs = true →
      decodeList (encodeList xs) = Except.ok xs
  | DList.nil, _ => rfl
  | DList.cons v rest, h => by
    simp only [safeList, Bool.and_eq_true] at h
    simp only [encodeList, decodeList]
    rw [decode_encode_val v h.1, decode_encode_list rest h.2]
    rfl
theorem decode_encode_obj :
    ∀ (o : DObj), safeObj o = true → decodeObj (encodeObj o) = Except.ok o
  | DObj.nil, _ => rfl
  | DObj.cons k v rest, h => by
    simp only [safeObj, Bool.and_eq_true] at h
    simp only [encodeObj, decodeObj]
    rw [decode_encode_val v h.1, decode_encode_obj rest h.2]
    rfl
end

theorem safeList_of_allConvertedIds :
    ∀ (xs : DList), allConvertedIds xs = true → safeList xs = true
  | DList.nil, _ => rfl
  | DList.cons v rest, h => by
    simp only [allConvertedIds, Bool.and_eq_true] at h
    have h1 := h.1
    have h2 := safeList_of_allConvertedIds rest h.2
    simp only [safeList, Bool.and_eq_true]
    refine ⟨?v, h2⟩
    cases v <;> simp_all

theorem safeList_of_allFailedIds :
    ∀ (xs : DList), allFailedIds xs = true → safeList xs = true
  | DList.nil, _ => rfl
  | DList.cons v rest, h => by
    simp only [allFailedIds, Bool.and_eq_true] at h
    have h1 := h.1
    have h2 := safeList_of_allFailedIds rest h.2
    simp only [safeList, Bool.and_eq_true]
    refine ⟨?v, h2⟩
    cases v <;> simp_all

theorem strategyName_if (s : Strategy) :
    (if DVal.pystr (strategyName s) = DVal.pystr "Mixture" then Strategy.MIXTURE
     else Strategy.UNIQUE) = s := by
  cases s <;> simp [strategyName]

theorem strategyName_if_str (s : Strategy) :
    (if strategyName s = "Mixture" then Strategy.MIXTURE
     else Strategy.UNIQUE) = s := by
  cases s <;> simp [strategyName]

/-- C8: serialising the five-key snapshot object (conversion_result,
formatted_data, failed_formatted_data, filepath, data) that holds a
`ConversionResult` with the custom JSON encoder and decoding it with the
custom JSON decoder reproduces `converted_ids` and `failed_ids` equal by
value, with the `Strategy` rebuilt from its string name and every
`ConvertedId`/`FailedId` entry rebuilt as a typed object rather than a
plain dict. -/
theorem C8_snapshot_roundtrip
    (ids dd dbs url fp : DVal) (strat : Strategy) (ci fi : DList)
    (fdo ffdo dato : DObj)
    (hids : safeVal ids = true) (hdd : safeVal dd = true)
    (hdbs : safeVal dbs = true) (hurl : safeVal url = true)
    (hfp : safeVal fp = true)
    (hci : allConvertedIds ci = true) (hfi : allFailedIds fi = true)
    (hfd : safeVal (DVal.pydict fdo) = true)
    (hffd : safeVal (DVal.pydict ffdo) = true)
    (hdat : safeVal (DVal.pydict dato) = true) :
    decodeVal (encodeVal (snapshotObj
        (DVal.pyConversionResult ids strat dd (DVal.pylist ci) dbs url
          (DVal.pylist fi))
        (DVal.pyDataFrame fdo) (DVal.pyDataFrame ffdo) fp
        (DVal.pyDataFrame dato))) =
      Except.ok (DVal.pydict
        (DObj.cons "conversion_result"
          (DVal.pyConversionResult ids strat dd (DVal.pylist ci) dbs url
            (DVal.pylist fi))
          (DObj.cons "formatted_data" (DVal.pyDataFrame fdo)
            (DObj.cons "failed_formatted_data" (DVal.pyDataFrame ffdo)
              (DObj.cons "filepath" fp
                (DObj.cons "data" (DVal.pyDataFrame dato) DObj.nil)))))) := by
  have hcl : safeList ci = true := safeList_of_allConvertedIds ci hci
  have hfl : safeList fi = true := safeList_of_allFailedIds fi hfi
  simp only [safeVal, Bool.and_eq_true, Bool.not_eq_true'] at hfd hffd hdat
  obtain ⟨⟨⟨hfd1, hfd2⟩, hfd3⟩, hfd4⟩ := hfd
  obtain ⟨⟨⟨hffd1, hffd2⟩, hffd3⟩, hffd4⟩ := hffd
  obtain ⟨⟨⟨hdat1, hdat2⟩, hdat3⟩, hdat4⟩ := hdat
  have hob1 : decodeObj (encodeObj fdo) = Except.ok fdo :=
    decode_encode_obj fdo hfd1
  have hob2 : decodeObj (encodeObj ffdo) = Except.ok ffdo :=
    decode_encode_obj ffdo hffd1
  have hob3 : decodeObj (encodeObj dato) = Except.ok dato :=
    decode_encode_obj dato hdat1
  have hvids := decode_encode_val ids hids
  have hvdd := decode_encode_val dd hdd
  have hvdbs := decode_encode_val dbs hdbs
  have hvurl := decode_encode_val url hurl
  have hvfp := decode_encode_val fp hfp
  have hlci : decodeList (encodeList ci) = Except.ok ci :=
    decode_encode_list ci hcl
  have hlfi : decodeList (encodeList fi) = Except.ok fi :=
    decode_encode_list fi hfl
  have hk1 : objectHook fdo = Except.ok (DVal.pydict fdo) := by
    simp [objectHook, hfd2, hfd3, hfd4]
  have hk2 : objectHook ffdo = Except.ok (DVal.pydict ffdo) := by
    simp [objectHook, hffd2, hffd3, hffd4]
  have hk3 : objectHook dato = Except.ok (DVal.pydict dato) := by
    simp [objectHook, hdat2, hdat3, hdat4]
  simp only [snapshotObj, encodeVal, decodeVal, decodeObj]
  rw [hvids, hvdd, hvdbs, hvurl, hvfp, hlci, hlfi, hob1, hob2, hob3]
  simp only [bind, Except.bind]
  rw [hk1, hk2, hk3]
  simp [objectHook, DObj.hasAll, DObj.hasKey, snapshotKeys, convertedIdKeys,
    failedIdKeys, List.contains, List.elem, pyGetKey, DObj.lookup,
    frameFromDict, asPlainDict, strategyName_if, strategyName_if_str,
    bind, Except.bind]

/-- C8 witness: a concrete snapshot holding one converted id, one failed
id and the Unique strategy round-trips to the typed rebuild. -/
theorem C8_snapshot_roundtrip_witness :
    decodeVal (encodeVal (snapshotObj (DVal.pyConversionResult (DVal.pylist (DList.cons (DVal.pystr "MESH:D015161") (DList.cons (DVal.pystr "MESH:D000001") DList.nil))) Strategy.UNIQUE (DVal.pystr "MONDO") (DVal.pylist (DList.cons (DVal.pyConvertedId (DVal.pyint 0) (DVal.pystr "MESH:D015161") DVal.pynone (DObj.cons "MONDO" (DVal.pystr "MONDO:0005233") DObj.nil)) DList.nil)) (DVal.pylist (DList.cons (DVal.pystr "MONDO") (DList.cons (DVal.pystr "MESH") DList.nil))) (DVal.pystr "https://www.ebi.ac.uk/spot/oxo/api/search") (DVal.pylist (DList.cons (DVal.pyFailedId (DVal.pyint 1) (DVal.pystr "MESH:D000001") (DVal.pystr "No results found")) DList.nil))) (DVal.pyDataFrame (DObj.cons "id" DVal.pynone DObj.nil)) (DVal.pyDataFrame DObj.nil) (DVal.pystr "examples/disease.tsv") (DVal.pyDataFrame (DObj.cons "0" (DVal.pystr "x") DObj.nil)))) =
      Except.ok (DVal.pydict (DObj.cons "conversion_result" (DVal.pyConversionResult (DVal.pylist (DList.cons (DVal.pystr "MESH:D015161") (DList.cons (DVal.pystr "MESH:D000001") DList.nil))) Strategy.UNIQUE (DVal.pystr "MONDO") (DVal.pylist (DList.cons (DVal.pyConvertedId (DVal.pyint 0) (DVal.pystr "MESH:D015161") DVal.pynone (DObj.cons "MONDO" (DVal.pystr "MONDO:0005233") DObj.nil)) DList.nil)) (DVal.pylist (DList.cons (DVal.pystr "MONDO") (DList.cons (DVal.pystr "MESH") DList.nil))) (DVal.pystr "https://www.ebi.ac.uk/spot/oxo/api/search") (DVal.pylist (DList.cons (DVal.pyFailedId (DVal.pyint 1) (DVal.pystr "MESH:D000001") (DVal.pystr "No results found")) DList.nil))) (DObj.cons "formatted_data" (DVal.pyDataFrame (DObj.cons "id" DVal.pynone DObj.nil)) (DObj.cons "failed_formatted_data" (DVal.pyDataFrame DObj.nil) (DObj.cons "filepath" (DVal.pystr "examples/disease.tsv") (DObj.cons "data" (DVal.pyDataFrame (DObj.cons "0" (DVal.pystr "x") DObj.nil)) DObj.nil)))))) :=
  C8_snapshot_roundtrip (DVal.pylist (DList.cons (DVal.pystr "MESH:D015161") (DList.cons (DVal.pystr "MESH:D000001") DList.nil))) (DVal.pystr "MONDO") (DVal.pylist (DList.cons (DVal.pystr "MONDO") (DList.cons (DVal.pystr "MESH") DList.nil))) (DVal.pystr "https://www.ebi.ac.uk/spot/oxo/api/search") (DVal.pystr "examples/disease.tsv") Strategy.UNIQUE (DList.cons (DVal.pyConvertedId (DVal.pyint 0) (DVal.pystr "MESH:D015161") DVal.pynone (DObj.cons "MONDO" (DVal.pystr "MONDO:0005233") DObj.nil)) DList.nil) (DList.cons (DVal.pyFailedId (DVal.pyint 1) (DVal.pystr "MESH:D000001") (DVal.pystr "No results found")) DList.nil) (DObj.cons "id" DVal.pynone DObj.nil) DObj.nil (DObj.cons "0" (DVal.pystr "x") DObj.nil) (by decide) (by decide) (by decide) (by decide) (by decide) (by decide) (by decide) (by decide) (by decide) (by decide)

/-- C3: the claim reads "for every entity-type converter, a batch size
over 500 raises, and the check passes for every batch size of at most
500".  In the code, only the compound converter implements
`check_batch_size`; the disease and gene converters inherit
`OntologyBaseConverter.check_batch_size`, whose body is
`raise NotImplementedError`, so their construction fails for *every*
batch size — contradicting the converters' own docstrings ("Raises:
Exception: If the batch size is larger than 500.") and the unit tests
(`tests/ontology/test_disease.py`, `tests/ontology/test_gene.py`), which
construct them with the default batch size 300 and expect success.  The
compound converter alone behaves as claimed. -/
theorem C3_batch_size_check_not_implemented :
    diseaseInit [PyObj.pstr "DOID:7402"] 300 =
      Except.error (InitError.batchSize "NotImplementedError")
    ∧ geneInit [PyObj.pstr "ENTREZ:7157"] 300 =
      Except.error (InitError.batchSize "NotImplementedError")
    ∧ diseaseInit [PyObj.pstr "DOID:7402"] 501 =
      Except.error (InitError.batchSize "NotImplementedError")
    ∧ compoundCheckBatchSize 500 = Except.ok ()
    ∧ compoundCheckBatchSize 501 =
      Except.error "The batch size cannot be larger than 500." := by
  exact ⟨rfl, rfl, rfl, rfl, rfl⟩

/-- C6 (counterexample): construction with a non-string entry succeeds,
silently dropping it, whereas the claim requires the non-string entry to
be collected into the validation-failure batch and construction to fail
atomically. -/
theorem C6_nonstring_entry_silently_dropped :
    compoundInit [PyObj.pstr "MESH:D015673", PyObj.other] 300 =
      Except.ok ["MESH:D015673"] := by
  rfl

/-- C6 (amended): construction first silently drops every non-string (and
empty-string) entry; among the retained string ids, construction succeeds
iff all of them match `<database>:[A-Za-z0-9.]+`, the retained list is
exactly the filtered strings, and on failure every violating retained id
is reported (with its position) in the single raised batch. -/
theorem C6_id_validation_amended (input : List PyObj) (bs : Nat)
    (hbs : bs ≤ 500) :
    ((∃ ids, compoundInit input bs = Except.ok ids) ↔
      ∀ id ∈ pyFilterIds input, matchIdPattern compoundChoices id = true)
    ∧ (∀ ids, compoundInit input bs = Except.ok ids →
        ids = pyFilterIds input ∧ ∀ id ∈ ids, PyObj.pstr id ∈ input)
    ∧ (∀ fs, compoundInit input bs = Except.error (InitError.invalidIds fs) →
        ∀ j id, (pyFilterIds input)[j]? = some id →
          matchIdPattern compoundChoices id = false →
          (⟨j, id, badFormatReason compoundChoices⟩ : CheckFailure) ∈ fs) := by
  have hcb : compoundCheckBatchSize bs = Except.ok () := by
    simp [compoundCheckBatchSize, defaultCheckBatchSize, Nat.not_lt.mpr hbs]
  have hinit := converterInit_of_checkBatch_ok compoundChoices
    compoundCheckBatchSize input bs hcb
  have hinit2 : compoundInit input bs =
      (if (checkIds compoundChoices (pyFilterIds input)).isEmpty then
        Except.ok (pyFilterIds input)
       else
        Except.error (InitError.invalidIds
          (checkIds compoundChoices (pyFilterIds input)))) := hinit
  refine ⟨?_, ?_, ?_⟩
  · constructor
    · rintro ⟨ids, hids⟩
      rw [← checkIdsAux_eq_nil_iff compoundChoices 0 (pyFilterIds input)]
      rw [hinit2] at hids
      by_cases hemp : (checkIds compoundChoices (pyFilterIds input)).isEmpty
      · exact List.isEmpty_iff.mp hemp
      · simp [hemp] at hids
    · intro hall
      refine ⟨pyFilterIds input, ?_⟩
      have hnil : checkIds compoundChoices (pyFilterIds input) = [] :=
        (checkIdsAux_eq_nil_iff compoundChoices 0 (pyFilterIds input)).mpr hall
      rw [hinit2, hnil]
      rfl
  · intro ids hids
    rw [hinit2] at hids
    by_cases hemp : (checkIds compoundChoices (pyFilterIds input)).isEmpty
    · simp [hemp] at hids
      exact ⟨hids.symm, fun id hid => pyFilterIds_mem input id (hids ▸ hid)⟩
    · simp [hemp] at hids
  · intro fs hfs j id hj hbad
    rw [hinit2] at hfs
    by_cases hemp : (checkIds compoundChoices (pyFilterIds input)).isEmpty
    · simp [hemp] at hfs
    · simp [hemp] at hfs
      have hmem := checkIdsAux_mem compoundChoices 0 j (pyFilterIds input) id hj
        hbad
      simp only [Nat.zero_add] at hmem
      have hfs2 : checkIdsAux compoundChoices 0 (pyFilterIds input) = fs := by
        simpa [checkIds] using hfs
      rw [← hfs2]
      exact hmem

/-- C6 witness: the amended theorem applied at a concrete input (a valid
id plus a non-string entry): construction succeeds. -/
theorem C6_id_validation_amended_witness :
    ∃ ids, compoundInit [PyObj.pstr "MESH:D015673", PyObj.other] 300 =
      Except.ok ids := by
  have h := C6_id_validation_amended [PyObj.pstr "MESH:D015673", PyObj.other]
    300 (by decide)
  exact h.1.mpr (by decide)

end OM
